import Mathlib

/-!
Verification development for the vcpkg build/install core
(`toolsrc/src/vcpkg/build.cpp`, the install translation unit, and
`toolsrc/src/VcpkgPaths.cpp`).

The C++ code is shallowly embedded: filesystem and child-process effects are
made explicit inputs (file listings, exit codes, lint error counts) and
explicit outputs (event traces), while the control flow of each embedded
function follows the source line by line.  Helper routines that live in
translation units not shipped here (`Strings::split`, the paragraph parser
field accessors, `StatusParagraphs::find_installed` / `insert`,
`filter_dependencies`) are modelled from the specification document and carry
a doc comment saying so.
-/

namespace Vcpkg

/-! ### Small string library mirroring the C++ helpers -/

/-- Model of `std::string::size()` (byte count; identical for the ASCII data
used throughout). -/
def strLen (s : String) : Nat := s.data.length

/-- Model of `std::string::substr(n)` / `std::string::erase(0, n)`: drop the
first `n` characters. -/
def substrFrom (s : String) (n : Nat) : String := ⟨s.data.drop n⟩

/-- ASCII lowercase of one character (models `Strings::ascii_to_lowercase`). -/
def asciiLower (c : Char) : Char :=
  if 'A' ≤ c ∧ c ≤ 'Z' then Char.ofNat (c.toNat + 32) else c

/-- Model of `Strings::case_insensitive_ascii_equals`. -/
def ciEq (a b : String) : Bool := a.data.map asciiLower == b.data.map asciiLower

/-- Model of `fs::path::filename().generic_string()`: the run of characters
after the last slash. -/
def filenameOf (s : String) : String :=
  ⟨(s.data.reverse.takeWhile (fun c => c ≠ '/')).reverse⟩

/-- Does `needle` occur at the head of `hay`? (helper for substring search) -/
def listHasLead : List Char → List Char → Bool
  | [], _ => true
  | _ :: _, [] => false
  | a :: as, b :: bs => a == b && listHasLead as bs

/-- Does `needle` occur anywhere inside `hay`? (helper for substring search) -/
def listHasSub (needle : List Char) : List Char → Bool
  | [] => needle.isEmpty
  | c :: cs => listHasLead needle (c :: cs) || listHasSub needle cs

/-- Substring test on strings. -/
def strContainsSub (hay needle : String) : Bool := listHasSub needle.data hay.data

/-- Lexicographic character-list comparison: the order `std::sort` and
`std::set_intersection` use on `std::string` (byte-wise lexicographic). -/
def charListLt : List Char → List Char → Bool
  | [], [] => false
  | [], _ :: _ => true
  | _ :: _, [] => false
  | a :: as, b :: bs => if a < b then true else if b < a then false else charListLt as bs

/-- Model of `operator<` on `std::string`. -/
def strLt (a b : String) : Bool := charListLt a.data b.data

/-- Model of `operator<=` on `std::string` (the non-strict companion). -/
def strLe (a b : String) : Bool := !(strLt b a)

theorem charListLt_irrefl : ∀ a : List Char, charListLt a a = false
  | [] => rfl
  | x :: xs => by
    simp only [charListLt, lt_irrefl, if_neg (lt_irrefl x)]
    exact charListLt_irrefl xs

theorem charListLt_trans :
    ∀ a b c : List Char, charListLt a b = true → charListLt b c = true →
      charListLt a c = true
  | [], [], _, h, _ => by cases h
  | [], _ :: _, [], _, h => by cases h
  | [], _ :: _, _ :: _, _, _ => rfl
  | _ :: _, [], _, h, _ => by cases h
  | _ :: _, _ :: _, [], _, h => by cases h
  | a :: as, b :: bs, c :: cs, hab, hbc => by
    simp only [charListLt] at hab hbc ⊢
    rcases lt_trichotomy a b with h1 | h1 | h1
    · rcases lt_trichotomy b c with h2 | h2 | h2
      · rw [if_pos (lt_trans h1 h2)]
      · subst h2
        rw [if_pos h1]
      · rw [if_neg (lt_asymm h2), if_pos h2] at hbc
        cases hbc
    · subst h1
      rw [if_neg (lt_irrefl a), if_neg (lt_irrefl a)] at hab
      rcases lt_trichotomy a c with h2 | h2 | h2
      · rw [if_pos h2]
      · subst h2
        rw [if_neg (lt_irrefl a), if_neg (lt_irrefl a)] at hbc ⊢
        exact charListLt_trans as bs cs hab hbc
      · rw [if_neg (lt_asymm h2), if_pos h2] at hbc
        cases hbc
    · rw [if_neg (lt_asymm h1), if_pos h1] at hab
      cases hab

theorem charListLt_connex :
    ∀ a b : List Char, charListLt a b = false → charListLt b a = false → a = b
  | [], [], _, _ => rfl
  | [], _ :: _, h, _ => by cases h
  | _ :: _, [], _, h => by cases h
  | a :: as, b :: bs, hab, hba => by
    simp only [charListLt] at hab hba
    rcases lt_trichotomy a b with h1 | h1 | h1
    · rw [if_pos h1] at hab
      cases hab
    · subst h1
      rw [if_neg (lt_irrefl a), if_neg (lt_irrefl a)] at hab hba
      rw [charListLt_connex as bs hab hba]
    · rw [if_pos h1] at hba
      cases hba

theorem charListLt_asymm (a b : List Char) (h : charListLt a b = true) :
    charListLt b a = false := by
  cases hba : charListLt b a with
  | false => rfl
  | true =>
    have := charListLt_trans a b a h hba
    rw [charListLt_irrefl a] at this
    cases this

theorem strLe_trans (a b c : String) (hab : strLe a b = true) (hbc : strLe b c = true) :
    strLe a c = true := by
  unfold strLe strLt at hab hbc ⊢
  rw [Bool.not_eq_true'] at hab hbc ⊢
  cases hca : charListLt c.data a.data with
  | false => rfl
  | true =>
    cases hcb : charListLt c.data b.data with
    | true => rw [hcb] at hbc; cases hbc
    | false =>
      cases hbcX : charListLt b.data c.data with
      | true =>
        have hba := charListLt_trans _ _ _ hbcX hca
        rw [hba] at hab
        cases hab
      | false =>
        have heq : b.data = c.data := charListLt_connex _ _ hbcX hcb
        rw [← heq] at hca
        rw [hca] at hab
        cases hab

theorem strLe_total (a b : String) : strLe a b = true ∨ strLe b a = true := by
  unfold strLe strLt
  cases h : charListLt b.data a.data with
  | false => exact Or.inl rfl
  | true =>
    right
    rw [charListLt_asymm _ _ h]
    rfl

instance : IsTotal String (fun a b => strLe a b = true) := ⟨strLe_total⟩

instance : IsTrans String (fun a b => strLe a b = true) := ⟨strLe_trans⟩

/-- Split a character list at a separator, keeping empty segments. -/
def splitCharAux (sep : Char) : List Char → List (List Char)
  | [] => [[]]
  | x :: xs =>
    if x = sep then [] :: splitCharAux sep xs
    else
      match splitCharAux sep xs with
      | [] => [[x]]
      | t :: ts => (x :: t) :: ts

/-- Modelled from the spec (the `Strings::split` helper lives in a translation
unit not shipped here): split at a separator and drop empty segments, which is
why a trailing separator yields no extra element and `KEY=` splits into the
single element `KEY`. -/
def stringsSplit (s : String) (sep : Char) : List String :=
  ((splitCharAux sep s.data).filter (fun t => ¬ t.isEmpty)).map (fun t => ⟨t⟩)

/-! ### Enumerations shared across the build/install core -/

inductive LinkageType
  | DYNAMIC
  | STATIC
  deriving DecidableEq, Repr

inductive BuildPolicy
  | EMPTY_PACKAGE
  | DLLS_WITHOUT_LIBS
  | ONLY_RELEASE_CRT
  | EMPTY_INCLUDE_FOLDER
  | ALLOW_OBSOLETE_MSVCRT
  deriving DecidableEq, Repr

/-- List of all policies (`G_ALL_POLICIES`). -/
def G_ALL_POLICIES : List BuildPolicy :=
  [BuildPolicy.EMPTY_PACKAGE, BuildPolicy.DLLS_WITHOUT_LIBS,
   BuildPolicy.ONLY_RELEASE_CRT, BuildPolicy.EMPTY_INCLUDE_FOLDER,
   BuildPolicy.ALLOW_OBSOLETE_MSVCRT]

/-- The paragraph field name of a policy (`Build::to_string(BuildPolicy)`),
returning `NAME_EMPTY_PACKAGE = "PolicyEmptyPackage"` and so on. -/
def BuildPolicy.to_string : BuildPolicy → String
  | BuildPolicy.EMPTY_PACKAGE => "PolicyEmptyPackage"
  | BuildPolicy.DLLS_WITHOUT_LIBS => "PolicyDLLsWithoutLIBs"
  | BuildPolicy.ONLY_RELEASE_CRT => "PolicyOnlyReleaseCRT"
  | BuildPolicy.EMPTY_INCLUDE_FOLDER => "PolicyEmptyIncludeFolder"
  | BuildPolicy.ALLOW_OBSOLETE_MSVCRT => "PolicyAllowObsoleteMsvcrt"

/-- The CMake variable spelling of a policy (`Build::to_cmake_variable`). -/
def to_cmake_variable : BuildPolicy → String
  | BuildPolicy.EMPTY_PACKAGE => "VCPKG_POLICY_EMPTY_PACKAGE"
  | BuildPolicy.DLLS_WITHOUT_LIBS => "VCPKG_POLICY_DLLS_WITHOUT_LIBS"
  | BuildPolicy.ONLY_RELEASE_CRT => "VCPKG_POLICY_ONLY_RELEASE_CRT"
  | BuildPolicy.EMPTY_INCLUDE_FOLDER => "VCPKG_POLICY_EMPTY_INCLUDE_FOLDER"
  | BuildPolicy.ALLOW_OBSOLETE_MSVCRT => "VCPKG_POLICY_ALLOW_OBSOLETE_MSVCRT"

/-- Model of `Build::to_linkage_type`. -/
def to_linkage_type (s : String) : Option LinkageType :=
  if s = "dynamic" then some LinkageType.DYNAMIC
  else if s = "static" then some LinkageType.STATIC
  else none

/-! ### BUILD_INFO paragraph reading (`inner_create_buildinfo`) -/

/-- A paragraph as handed to `Parse::ParagraphParser`: field name to value. -/
abbrev Paragraph : Type := List (String × String)

/-- Modelled from the spec (section 4.A; `paragraphparser.cpp` is not shipped
here): `optional_field(p, name) → string`, the empty string if absent.
`required_field` behaves the same on the value and additionally records a
missing-field error; in `inner_create_buildinfo` that recorded error is
unreachable because an absent `CRTLinkage`/`LibraryLinkage` already trips the
inline linkage-type check on the empty string, so it is not modelled. -/
def optional_field (pgh : Paragraph) (name : String) : String :=
  (List.lookup name pgh).getD ""

structure BuildInfo where
  crt_linkage : LinkageType
  library_linkage : LinkageType
  version : Option String := none
  policies : List (BuildPolicy × Bool) := []
  deriving DecidableEq, Repr

/-- The policy-reading loop of `inner_create_buildinfo`: for each policy, an
absent or empty field is skipped, `enabled`/`disabled` record the policy, any
other value is fatal (`Checks::exit_with_message`). -/
def read_policies (pgh : Paragraph) : List BuildPolicy → Except String (List (BuildPolicy × Bool))
  | [] => Except.ok []
  | p :: rest =>
    let setting := optional_field pgh p.to_string
    if setting = "" then read_policies pgh rest
    else if setting = "enabled" then
      match read_policies pgh rest with
      | Except.error e => Except.error e
      | Except.ok l => Except.ok ((p, true) :: l)
    else if setting = "disabled" then
      match read_policies pgh rest with
      | Except.error e => Except.error e
      | Except.ok l => Except.ok ((p, false) :: l)
    else Except.error ("Unknown setting for policy " ++ p.to_string ++ ": " ++ setting)

/-- Model of `inner_create_buildinfo` (build.cpp): fatal exits become
`Except.error`. -/
def inner_create_buildinfo (pgh : Paragraph) : Except String BuildInfo :=
  match to_linkage_type (optional_field pgh "CRTLinkage") with
  | none =>
    Except.error ("Invalid crt linkage type: [" ++ optional_field pgh "CRTLinkage" ++ "]")
  | some crt =>
    match to_linkage_type (optional_field pgh "LibraryLinkage") with
    | none =>
      Except.error
        ("Invalid library linkage type: [" ++ optional_field pgh "LibraryLinkage" ++ "]")
    | some lib =>
      match read_policies pgh G_ALL_POLICIES with
      | Except.error e => Except.error e
      | Except.ok pols =>
        Except.ok
          { crt_linkage := crt
            library_linkage := lib
            version :=
              if optional_field pgh "Version" = "" then none
              else some (optional_field pgh "Version")
            policies := pols }

/-! ### Triplet environment parsing (`PreBuildInfo::from_triplet_file`) -/

/-- The sentinel marking the start of structured output. -/
def FLAG_GUID : String := "c35112b6-d1ba-415b-aa5d-81de856ef8eb"

structure PreBuildInfo where
  target_architecture : String := ""
  cmake_system_name : String := ""
  cmake_system_version : String := ""
  platform_toolset : Option String := none
  visual_studio_path : Option String := none
  deriving DecidableEq, Repr

/-- The variable-assignment loop of `PreBuildInfo::from_triplet_file`,
operating on the lines after the sentinel.  A line must split (on `=`) into
one part (a variable with no value) or two parts, and the variable name must
be one of the five recognized keys; everything else is fatal. -/
def read_pre_build_lines : List String → PreBuildInfo → Except String PreBuildInfo
  | [], pbi => Except.ok pbi
  | line :: rest, pbi =>
    let s := stringsSplit line '='
    if s.length = 1 ∨ s.length = 2 then
      let variable_name := s.headD ""
      let variable_value := if s.length = 1 then "" else (s.getD 1 "")
      if variable_name = "VCPKG_TARGET_ARCHITECTURE" then
        read_pre_build_lines rest { pbi with target_architecture := variable_value }
      else if variable_name = "VCPKG_CMAKE_SYSTEM_NAME" then
        read_pre_build_lines rest { pbi with cmake_system_name := variable_value }
      else if variable_name = "VCPKG_CMAKE_SYSTEM_VERSION" then
        read_pre_build_lines rest { pbi with cmake_system_version := variable_value }
      else if variable_name = "VCPKG_PLATFORM_TOOLSET" then
        read_pre_build_lines rest
          { pbi with platform_toolset := if variable_value = "" then none else some variable_value }
      else if variable_name = "VCPKG_VISUAL_STUDIO_PATH" then
        read_pre_build_lines rest
          { pbi with visual_studio_path := if variable_value = "" then none else some variable_value }
      else Except.error ("Unknown variable name " ++ line)
    else Except.error ("Expected format is [VARIABLE_NAME=VARIABLE_VALUE], but was [" ++ line ++ "]")

/-- Model of `std::find(lines.cbegin(), e, FLAG_GUID)` followed by `++cur`:
everything up to and including the first sentinel line is dropped; when no
sentinel occurs the whole list is dropped (`cur == e`). -/
def dropThroughSentinel : List String → List String
  | [] => []
  | l :: ls => if l = FLAG_GUID then ls else dropThroughSentinel ls

/-- Model of the parsing portion of `PreBuildInfo::from_triplet_file`, taking
the already-split output lines of the external cmake run. -/
def from_triplet_lines (lines : List String) : Except String PreBuildInfo :=
  read_pre_build_lines (dropThroughSentinel lines) {}

/-- Model of `PreBuildInfo::from_triplet_file` on the captured output string
of the external cmake run (split at newlines like `Strings::split(output, "\n")`). -/
def from_triplet_file (output : String) : Except String PreBuildInfo :=
  from_triplet_lines (stringsSplit output '\n')

/-! ### Package and status data model -/

/-- A package spec: name plus triplet (triplets are canonical strings). -/
structure PackageSpec where
  name : String
  triplet : String
  deriving DecidableEq, Repr

/-- A dependency entry of a `SourceParagraph`: a name and an optional
qualifier string restricting the triplets it applies to. -/
structure Dependency where
  name : String
  qualifier : Option String := none
  deriving DecidableEq, Repr

/-- The port manifest fields that the build driver consumes. -/
structure SourceParagraph where
  name : String
  depends : List Dependency := []
  deriving DecidableEq, Repr

/-- The fields of a `BinaryParagraph` that the installer consumes.  The
`feature` field is empty for a core paragraph. -/
structure BinaryParagraph where
  name : String
  version : String
  triplet : String
  feature : String := ""
  deriving DecidableEq, Repr

/-- Model of `PackageSpec::dir()`: the sandbox directory name. -/
def BinaryParagraph.dir (p : BinaryParagraph) : String := p.name ++ "_" ++ p.triplet

/-- Model of `BinaryParagraph::fullstem()`. -/
def BinaryParagraph.fullstem (p : BinaryParagraph) : String :=
  p.name ++ "_" ++ p.version ++ "_" ++ p.triplet

structure BinaryControlFile where
  core_paragraph : BinaryParagraph
  features : List BinaryParagraph := []
  deriving DecidableEq, Repr

inductive Want
  | INSTALL
  | PURGE
  | HOLD
  deriving DecidableEq, Repr

inductive InstallState
  | NOT_INSTALLED
  | HALF_INSTALLED
  | INSTALLED
  deriving DecidableEq, Repr

structure StatusParagraph where
  package : BinaryParagraph
  want : Want
  state : InstallState
  deriving DecidableEq, Repr

/-- Key equality of status records: `(name, triplet, feature)` is the primary
key of the status database. -/
def sameKey (a b : BinaryParagraph) : Bool :=
  a.name == b.name && a.triplet == b.triplet && a.feature == b.feature

/-- Modelled from the spec (section 4.C; `statusparagraphs.cpp` is not shipped
here): `StatusParagraphs::insert` keeps the latest record per key, later
records superseding earlier ones. -/
def statusDbInsert (db : List StatusParagraph) (p : StatusParagraph) : List StatusParagraph :=
  p :: db.filter (fun q => !(sameKey q.package p.package))

/-- Modelled from the spec (section 4.C; `statusparagraphs.cpp` is not shipped
here): `StatusParagraphs::find_installed(name, triplet)` finds the current
core record for the key and succeeds only when its state is `INSTALLED`. -/
def find_installed (db : List StatusParagraph) (name triplet : String) : Bool :=
  db.any (fun p =>
    p.package.name == name && p.package.triplet == triplet &&
    p.package.feature == "" && p.state == InstallState.INSTALLED)

/-! ### Build driver (`Build::build_package`) -/

inductive BuildResult
  | NULLVALUE
  | SUCCEEDED
  | BUILD_FAILED
  | POST_BUILD_CHECKS_FAILED
  | FILE_CONFLICTS
  | CASCADED_DUE_TO_MISSING_DEPENDENCIES
  deriving DecidableEq, Repr

structure ExtendedBuildResult where
  code : BuildResult
  unmet_dependencies : List PackageSpec := []
  deriving DecidableEq, Repr

/-- Modelled from the spec (`filter_dependencies` lives in `dependencies.cpp`,
not shipped here): a qualifier restricts a dependency to triplets matched by
the predicate string (substring match, cf. the qualified-dependency scenario
where qualifier `windows` selects triplet `x64-windows` and not `x64-linux`);
an absent qualifier always applies.  The result is the list of names of the
applicable dependencies. -/
def filter_dependencies (deps : List Dependency) (triplet : String) : List String :=
  (deps.filter (fun d =>
    match d.qualifier with
    | none => true
    | some q => strContainsSub triplet q)).map (fun d => d.name)

/-- The build configuration fields that `build_package` consumes. -/
structure BuildPackageConfig where
  src : SourceParagraph
  triplet : String
  deriving DecidableEq, Repr

/-- The ambient effects of the external build step: the exit code of the
spawned build command and the error count reported by the post-build lint. -/
structure BuildExternals where
  exitCode : Int
  lintErrorCount : Nat
  deriving DecidableEq, Repr

/-- The result of a `build_package` run together with the two externally
visible effects the claims are about: whether the external build command was
executed at all, and whether the binary `CONTROL` file was written into the
package sandbox (`write_binary_control_file`). -/
structure BuildOutcome where
  result : ExtendedBuildResult
  ranBuild : Bool
  wroteControlFile : Bool
  deriving DecidableEq, Repr

/-- The dependency scan at the head of `build_package`: each applicable entry
of `config.src.depends` that is not currently installed for the triplet is
collected (as a `PackageSpec`) into `missing_specs`. -/
def missing_specs (config : BuildPackageConfig) (status_db : List StatusParagraph) :
    List PackageSpec :=
  ((filter_dependencies config.src.depends config.triplet).filter
    (fun dep => !(find_installed status_db dep config.triplet))).map
    (fun dep => { name := dep, triplet := config.triplet })

/-- Model of `Build::build_package`: the dependency scan, then the external
build command, then `BUILD_INFO` reading plus post-build lint, then the
binary control file write.  The cmake invocation, environment command,
metrics and timing have no bearing on the result classification and are
elided; the exit code and lint error count enter through `ext`. -/
def build_package (config : BuildPackageConfig) (status_db : List StatusParagraph)
    (ext : BuildExternals) : BuildOutcome :=
  if !(missing_specs config status_db).isEmpty then
    { result := { code := BuildResult.CASCADED_DUE_TO_MISSING_DEPENDENCIES
                  unmet_dependencies := missing_specs config status_db }
      ranBuild := false
      wroteControlFile := false }
  else if ext.exitCode ≠ 0 then
    { result := { code := BuildResult.BUILD_FAILED }, ranBuild := true, wroteControlFile := false }
  else if ext.lintErrorCount ≠ 0 then
    { result := { code := BuildResult.POST_BUILD_CHECKS_FAILED }
      ranBuild := true
      wroteControlFile := false }
  else
    { result := { code := BuildResult.SUCCEEDED }, ranBuild := true, wroteControlFile := true }

/-- The transitive dependencies of a depends list, following the words of the
claim (for comparison with the direct scan the code performs): repeatedly
expand through the port table, fuel-bounded.  This is a claim-side
definition, not a translation of any source function. -/
def spec_transitive_depends (ports : List (String × List Dependency)) (triplet : String) :
    Nat → List String → List String
  | 0, acc => acc
  | n + 1, acc =>
    let next := (acc.flatMap (fun d =>
        filter_dependencies ((List.lookup d ports).getD []) triplet)).filter
      (fun d => !acc.contains d)
    if next.isEmpty then acc else spec_transitive_depends ports triplet n (acc ++ next)

/-! ### Installer (`Install::install_package` and helpers) -/

inductive FileType
  | directory
  | regular
  | other
  deriving DecidableEq, Repr

/-- One entry of the recursive enumeration of the package sandbox, together
with the answers the filesystem gives during the copy loop: `status` is
`none` when `fs.status` reports an error code for the entry, and
`targetExists` is the answer of `fs.exists(target)` for its destination. -/
structure FSEntry where
  path : String
  status : Option FileType
  targetExists : Bool := false
  deriving DecidableEq, Repr

/-- The externally visible effects of an install, in order of occurrence. -/
inductive Event
  | writeUpdate (p : StatusParagraph)
  | dbInsert (p : StatusParagraph)
  | statusError (path : String)
  | createDir (target : String)
  | warnOverwrite (target : String)
  | copyFile (source target : String) (overwrite : Bool)
  | skipUnknown (path : String)
  | writeListfile (path : String) (lines : List String)
  deriving DecidableEq, Repr

/-- Is an event a status-record write (journal append or database insert)? -/
def Event.isStatusWrite : Event → Bool
  | Event.writeUpdate _ => true
  | Event.dbInsert _ => true
  | _ => false

/-- The status records appended to the journal by a trace, in order. -/
def journalWrites (evs : List Event) : List StatusParagraph :=
  evs.filterMap (fun e =>
    match e with
    | Event.writeUpdate p => some p
    | _ => none)

/-- The body of the copy loop of `install_files_and_write_listfile`, handling
the entries in order.  Returns the listfile lines contributed (unsorted, in
enumeration order) and the events performed.  `prefLen` is the length of the
source directory string; `destination` and `destination_subdirectory` are as
in the source. -/
def copy_loop (prefLen : Nat) (destination destination_subdirectory : String) :
    List FSEntry → List String × List Event
  | [] => ([], [])
  | e :: rest =>
    let (ls, evs) := copy_loop prefLen destination destination_subdirectory rest
    match e.status with
    | none => (ls, Event.statusError e.path :: evs)
    | some ft =>
      if ft = FileType.regular ∧
          (ciEq (filenameOf e.path) "CONTROL" ∨ ciEq (filenameOf e.path) "BUILD_INFO") then
        (ls, evs)
      else
        let suffix := substrFrom e.path (prefLen + 1)
        let target := destination ++ "/" ++ suffix
        match ft with
        | FileType.directory =>
          ((destination_subdirectory ++ "/" ++ suffix ++ "/") :: ls,
           Event.createDir target :: evs)
        | FileType.regular =>
          ((destination_subdirectory ++ "/" ++ suffix) :: ls,
           (if e.targetExists then [Event.warnOverwrite target] else []) ++
             Event.copyFile e.path target true :: evs)
        | FileType.other => (ls, Event.skipUnknown e.path :: evs)

/-- Model of `Install::install_files_and_write_listfile`.  The destination
directory (and listfile parent) creation is the leading `createDir` event;
the `Checks::check_exit` on a missing source directory aborts the process,
modelled as `none`.  The listfile lines are seeded with the bare triplet
subdirectory line and sorted (`std::sort`) before being written. -/
def install_files_and_write_listfile (source_dir : String) (entries : List FSEntry)
    (destination destination_subdirectory listfile : String) (source_exists : Bool) :
    Option (List String × List Event) :=
  if source_exists then
    let (ls, evs) := copy_loop (strLen source_dir) destination destination_subdirectory entries
    let output := List.insertionSort (fun a b => strLe a b = true) ((destination_subdirectory ++ "/") :: ls)
    some (output, Event.createDir destination :: evs ++ [Event.writeListfile listfile output])
  else none

/-- Inner loop of `std::set_intersection`: advance the second range while its
head is below `a`; `sa` continues with the tail of the first range. -/
def siInner (sa : List String → List String) (a : String) : List String → List String
  | [] => []
  | b :: bs =>
    if strLt a b then sa (b :: bs)
    else if strLt b a then siInner sa a bs
    else a :: sa bs

/-- Model of `std::set_intersection` on two sorted string ranges. -/
def setIntersection : List String → List String → List String
  | [], _ => []
  | a :: as, bs => siInner (setIntersection as) a bs

/-- Model of `extract_files_in_triplet`: concatenate the file lists of the
status records matching the triplet, then sort. -/
def extract_files_in_triplet (pgh_and_files : List (String × List String))
    (triplet : String) : List String :=
  List.insertionSort (fun a b => strLe a b = true)
    (((pgh_and_files.filter (fun t => t.1 == triplet)).map (fun t => t.2)).flatten)

/-- Model of `remove_first_n_chars`. -/
def remove_first_n_chars (strings : List String) (n : Nat) : List String :=
  strings.map (fun s => substrFrom s n)

/-- Model of `build_list_of_package_files`: every path that
`get_files_recursive` yields under the package directory, stripped of the
directory and its slash, sorted (`SortedVector`).  Nothing is excluded. -/
def build_list_of_package_files (package_file_paths : List String) (package_dir : String) :
    List String :=
  List.insertionSort (fun a b => strLe a b = true)
    (package_file_paths.map (fun p => substrFrom p (strLen package_dir + 1)))

/-- Model of `build_list_of_installed_files`: the files recorded for the
triplet, with the leading `triplet/` stripped, sorted. -/
def build_list_of_installed_files (pgh_and_files : List (String × List String))
    (triplet : String) : List String :=
  List.insertionSort (fun a b => strLe a b = true)
    (remove_first_n_chars (extract_files_in_triplet pgh_and_files triplet)
      (strLen triplet + 1))

inductive InstallResult
  | FILE_CONFLICTS
  | SUCCESS
  deriving DecidableEq, Repr

/-- The path fields of `VcpkgPaths` that the installer consumes. -/
structure VcpkgPathsModel where
  packages : String
  installed : String
  vcpkg_dir_info : String
  deriving DecidableEq, Repr

/-- Model of `VcpkgPaths::listfile_path`. -/
def listfile_path (paths : VcpkgPathsModel) (pgh : BinaryParagraph) : String :=
  paths.vcpkg_dir_info ++ "/" ++ (pgh.fullstem ++ ".list")

/-- Model of `VcpkgPaths::package_dir`. -/
def package_dir (paths : VcpkgPathsModel) (pgh : BinaryParagraph) : String :=
  paths.packages ++ "/" ++ pgh.dir

/-- The status record written for a paragraph at a given state
(`want` is always `INSTALL` on the install path). -/
def installRecord (p : BinaryParagraph) (st : InstallState) : StatusParagraph :=
  { package := p, want := Want.INSTALL, state := st }

/-- The journal-then-insert pair of events for one status record. -/
def recordEvents (p : BinaryParagraph) (st : InstallState) : List Event :=
  [Event.writeUpdate (installRecord p st), Event.dbInsert (installRecord p st)]

/-- Model of `Install::install_package`.  Inputs beyond the binary control
file and status database are the filesystem answers: `entries` is the
recursive enumeration of the package sandbox (used both by the conflict scan
and by the copy loop), `pgh_and_files` is what `get_installed_files` read
from the listfiles (triplet of each status record paired with its file list),
and `source_exists` answers the copy-step existence check.  The result is the
event trace together with `some (result, new status database)`, or `none`
after the trace when the process aborted inside the copy step. -/
def install_package (paths : VcpkgPathsModel) (bcf : BinaryControlFile)
    (status_db : List StatusParagraph) (entries : List FSEntry)
    (pgh_and_files : List (String × List String)) (source_exists : Bool) :
    List Event × Option (InstallResult × List StatusParagraph) :=
  let pdir := package_dir paths bcf.core_paragraph
  let triplet := bcf.core_paragraph.triplet
  let package_files := build_list_of_package_files (entries.map (fun e => e.path)) pdir
  let installed_files := build_list_of_installed_files pgh_and_files triplet
  let intersection := setIntersection package_files installed_files
  if !intersection.isEmpty then
    ([], some (InstallResult.FILE_CONFLICTS, status_db))
  else
    let halfEvents :=
      recordEvents bcf.core_paragraph InstallState.HALF_INSTALLED ++
        bcf.features.flatMap (fun f => recordEvents f InstallState.HALF_INSTALLED)
    let db1 := (bcf.features.map (fun f => installRecord f InstallState.HALF_INSTALLED)).foldl
      statusDbInsert
      (statusDbInsert status_db (installRecord bcf.core_paragraph InstallState.HALF_INSTALLED))
    match install_files_and_write_listfile pdir entries (paths.installed ++ "/" ++ triplet)
        triplet (listfile_path paths bcf.core_paragraph) source_exists with
    | none => (halfEvents, none)
    | some (_, copyEvents) =>
      let installedEvents :=
        recordEvents bcf.core_paragraph InstallState.INSTALLED ++
          bcf.features.flatMap (fun f => recordEvents f InstallState.INSTALLED)
      let db2 := (bcf.features.map (fun f => installRecord f InstallState.INSTALLED)).foldl
        statusDbInsert
        (statusDbInsert db1 (installRecord bcf.core_paragraph InstallState.INSTALLED))
      (halfEvents ++ copyEvents ++ installedEvents, some (InstallResult.SUCCESS, db2))

/-! ### Executor (`Install::perform_and_exit_ex`) -/

inductive KeepGoing
  | YES
  | NO
  deriving DecidableEq, Repr

/-- An action of the plan, as the executor distinguishes them. -/
inductive AnyAction (ι ρ : Type)
  | install (a : ι)
  | remove (r : ρ)
  deriving DecidableEq, Repr

/-- Modelled executor loop of `perform_and_exit_ex`, parameterized by the
state type and by the handlers: `istep` models
`perform_install_plan_action` (result plus updated state), `rstep` models
`Remove::perform_remove_plan_action`.  Returns the recorded results, the
actions actually applied (in order), the final state, and whether the loop
called `Checks::exit_fail` (fail-fast abort).  The `results` slot of an
action is pushed as `NULLVALUE` and, exactly as in the source, is updated to
the install result only after the fail-fast check, so an aborting run leaves
the failing slot `NULLVALUE`; remove actions keep `NULLVALUE`. -/
def perform_and_exit_ex {σ ι ρ : Type} (istep : σ → ι → BuildResult × σ) (rstep : σ → ρ → σ)
    (keep_going : KeepGoing) : List (AnyAction ι ρ) → σ →
    List BuildResult × List (AnyAction ι ρ) × σ × Bool
  | [], s => ([], [], s, false)
  | a :: rest, s =>
    match a with
    | AnyAction.install ia =>
      let r := (istep s ia).1
      let s' := (istep s ia).2
      if r ≠ BuildResult.SUCCEEDED ∧ keep_going = KeepGoing.NO then
        ([BuildResult.NULLVALUE], [a], s', true)
      else
        let (rs, applied, sEnd, aborted) := perform_and_exit_ex istep rstep keep_going rest s'
        (r :: rs, a :: applied, sEnd, aborted)
    | AnyAction.remove ra =>
      let s' := rstep s ra
      let (rs, applied, sEnd, aborted) := perform_and_exit_ex istep rstep keep_going rest s'
      (BuildResult.NULLVALUE :: rs, a :: applied, sEnd, aborted)

/-- The state after threading every action of a list through the handlers,
with no abort consideration (specification-side helper for the executor
theorems). -/
def stateAfter {σ ι ρ : Type} (istep : σ → ι → BuildResult × σ) (rstep : σ → ρ → σ) :
    List (AnyAction ι ρ) → σ → σ
  | [], s => s
  | AnyAction.install ia :: rest, s => stateAfter istep rstep rest (istep s ia).2
  | AnyAction.remove ra :: rest, s => stateAfter istep rstep rest (rstep s ra)

/-- The results of applying every action of the plan in order, never
aborting (specification-side helper: what a keep-going run records). -/
def runAll {σ ι ρ : Type} (istep : σ → ι → BuildResult × σ) (rstep : σ → ρ → σ) :
    List (AnyAction ι ρ) → σ → List BuildResult
  | [], _ => []
  | AnyAction.install ia :: rest, s => (istep s ia).1 :: runAll istep rstep rest (istep s ia).2
  | AnyAction.remove ra :: rest, s => BuildResult.NULLVALUE :: runAll istep rstep rest (rstep s ra)

end Vcpkg

namespace Vcpkg

/-! ### Helper lemmas -/

theorem to_linkage_type_isSome_iff (s : String) :
    (to_linkage_type s).isSome = true ↔ s = "dynamic" ∨ s = "static" := by
  unfold to_linkage_type
  split_ifs with h1 h2 <;> simp_all

theorem read_policies_ok_iff (pgh : Paragraph) (ps : List BuildPolicy) :
    (∃ l, read_policies pgh ps = Except.ok l) ↔
      ∀ p ∈ ps,
        optional_field pgh p.to_string = "" ∨
        optional_field pgh p.to_string = "enabled" ∨
        optional_field pgh p.to_string = "disabled" := by
  induction ps with
  | nil => simp [read_policies]
  | cons p rest ih =>
    simp only [read_policies, List.mem_cons]
    split_ifs with h1 h2 h3
    · constructor
      · intro h q hq
        rcases hq with hq | hq
        · subst hq; exact Or.inl h1
        · exact (ih.mp h) q hq
      · intro h
        exact ih.mpr (fun q hq => h q (Or.inr hq))
    · constructor
      · intro ⟨l, hl⟩ q hq
        rcases hq with hq | hq
        · subst hq; exact Or.inr (Or.inl h2)
        · refine (ih.mp ?_) q hq
          cases hrest : read_policies pgh rest with
          | error e => rw [hrest] at hl; cases hl
          | ok l2 => exact ⟨l2, rfl⟩
      · intro h
        obtain ⟨l, hl⟩ := ih.mpr (fun q hq => h q (Or.inr hq))
        exact ⟨(p, true) :: l, by rw [hl]⟩
    · constructor
      · intro ⟨l, hl⟩ q hq
        rcases hq with hq | hq
        · subst hq; exact Or.inr (Or.inr h3)
        · refine (ih.mp ?_) q hq
          cases hrest : read_policies pgh rest with
          | error e => rw [hrest] at hl; cases hl
          | ok l2 => exact ⟨l2, rfl⟩
      · intro h
        obtain ⟨l, hl⟩ := ih.mpr (fun q hq => h q (Or.inr hq))
        exact ⟨(p, false) :: l, by rw [hl]⟩
    · constructor
      · intro ⟨l, hl⟩; cases hl
      · intro h
        rcases h p (Or.inl rfl) with hb | hb | hb <;> exact absurd hb (by assumption)

/-! ### Claim C9 -/

/-- C9 counterexample: the per-policy fields of a `BUILD_INFO` paragraph are
not named `VCPKG_POLICY_*`.  A paragraph carrying
`VCPKG_POLICY_EMPTY_PACKAGE: bogus` is accepted (the field is simply not a
policy field), while the actual policy field name is `PolicyEmptyPackage`
(so the same bogus value under that name is fatal), and that name does not
carry the `VCPKG_POLICY_` spelling, which is only the CMake variable
produced by `to_cmake_variable`. -/
theorem C9_counterexample :
    inner_create_buildinfo
        [("CRTLinkage", "dynamic"), ("LibraryLinkage", "static"),
         ("VCPKG_POLICY_EMPTY_PACKAGE", "bogus")] =
      Except.ok { crt_linkage := LinkageType.DYNAMIC, library_linkage := LinkageType.STATIC } ∧
    (∃ e, inner_create_buildinfo
        [("CRTLinkage", "dynamic"), ("LibraryLinkage", "static"),
         ("PolicyEmptyPackage", "bogus")] = Except.error e) ∧
    BuildPolicy.to_string BuildPolicy.EMPTY_PACKAGE = "PolicyEmptyPackage" ∧
    to_cmake_variable BuildPolicy.EMPTY_PACKAGE = "VCPKG_POLICY_EMPTY_PACKAGE" := by
  refine ⟨rfl, ⟨"Unknown setting for policy PolicyEmptyPackage: bogus", rfl⟩, rfl, rfl⟩

/-- C9 (amended): reading a `BUILD_INFO` paragraph succeeds exactly when the
`CRTLinkage` and `LibraryLinkage` fields are present with a value in
`{dynamic, static}` and every per-policy field, named
`PolicyEmptyPackage`, `PolicyDLLsWithoutLIBs`, `PolicyOnlyReleaseCRT`,
`PolicyEmptyIncludeFolder` or `PolicyAllowObsoleteMsvcrt` in the paragraph
(not `VCPKG_POLICY_*`, which is the CMake spelling), is absent, empty,
`enabled` or `disabled`; the `Version` field is optional (it does not occur
in the success condition). -/
theorem C9_buildinfo_fields (pgh : Paragraph) :
    (∃ bi, inner_create_buildinfo pgh = Except.ok bi) ↔
      (optional_field pgh "CRTLinkage" = "dynamic" ∨
        optional_field pgh "CRTLinkage" = "static") ∧
      (optional_field pgh "LibraryLinkage" = "dynamic" ∨
        optional_field pgh "LibraryLinkage" = "static") ∧
      ∀ p ∈ G_ALL_POLICIES,
        optional_field pgh p.to_string = "" ∨
        optional_field pgh p.to_string = "enabled" ∨
        optional_field pgh p.to_string = "disabled" := by
  constructor
  · intro ⟨bi, hbi⟩
    unfold inner_create_buildinfo at hbi
    cases hc : to_linkage_type (optional_field pgh "CRTLinkage") with
    | none => rw [hc] at hbi; exact Except.noConfusion hbi
    | some crt =>
      rw [hc] at hbi
      cases hl : to_linkage_type (optional_field pgh "LibraryLinkage") with
      | none => rw [hl] at hbi; exact Except.noConfusion hbi
      | some lib =>
        rw [hl] at hbi
        cases hp : read_policies pgh G_ALL_POLICIES with
        | error e => rw [hp] at hbi; exact Except.noConfusion hbi
        | ok pols =>
          exact ⟨(to_linkage_type_isSome_iff _).mp (by rw [hc]; rfl),
            (to_linkage_type_isSome_iff _).mp (by rw [hl]; rfl),
            (read_policies_ok_iff pgh G_ALL_POLICIES).mp ⟨pols, hp⟩⟩
  · intro ⟨h1, h2, h3⟩
    have hc : (to_linkage_type (optional_field pgh "CRTLinkage")).isSome = true :=
      (to_linkage_type_isSome_iff _).mpr h1
    have hl : (to_linkage_type (optional_field pgh "LibraryLinkage")).isSome = true :=
      (to_linkage_type_isSome_iff _).mpr h2
    obtain ⟨crt, hcrt⟩ := Option.isSome_iff_exists.mp hc
    obtain ⟨lib, hlib⟩ := Option.isSome_iff_exists.mp hl
    obtain ⟨pols, hpols⟩ := (read_policies_ok_iff pgh G_ALL_POLICIES).mpr h3
    unfold inner_create_buildinfo
    rw [hcrt, hlib, hpols]
    exact ⟨_, rfl⟩

/-- C9 witness: a concrete paragraph satisfying the conditions is accepted. -/
theorem C9_buildinfo_fields_witness :
    ∃ bi, inner_create_buildinfo
        [("CRTLinkage", "static"), ("LibraryLinkage", "static"),
         ("Version", "1.2.8"), ("PolicyEmptyPackage", "enabled")] = Except.ok bi :=
  (C9_buildinfo_fields _).mpr (by decide)

/-! ### Claim C10 -/

theorem dropThroughSentinel_of_not_mem :
    ∀ lines : List String, FLAG_GUID ∉ lines → dropThroughSentinel lines = []
  | [], _ => rfl
  | l :: ls, h => by
    have hne : ¬ l = FLAG_GUID := fun hl => h (by rw [hl]; exact List.mem_cons_self _ _)
    simp only [dropThroughSentinel, if_neg hne]
    exact dropThroughSentinel_of_not_mem ls (fun hm => h (List.mem_cons_of_mem l hm))

theorem dropThroughSentinel_append :
    ∀ (pre post : List String), FLAG_GUID ∉ pre →
      dropThroughSentinel (pre ++ FLAG_GUID :: post) = post
  | [], post, _ => by simp [dropThroughSentinel]
  | l :: ls, post, h => by
    have hne : ¬ l = FLAG_GUID := fun hl => h (by rw [hl]; exact List.mem_cons_self _ _)
    rw [List.cons_append]
    simp only [dropThroughSentinel, if_neg hne]
    exact dropThroughSentinel_append ls post (fun hm => h (List.mem_cons_of_mem l hm))

/-- C10: in `PreBuildInfo::from_triplet_file`, every line up to and including
the first sentinel-GUID line is discarded without being inspected, so only
the lines after a present sentinel go through the KEY=VALUE loop; and when
the sentinel is absent from the output entirely, parsing succeeds with every
field at its default (empty target architecture, empty cmake system name and
version, no platform toolset, no Visual Studio path). -/
theorem C10_sentinel_handling (output : String) (lines pre post : List String) :
    (FLAG_GUID ∉ stringsSplit output '\n' →
      from_triplet_file output = Except.ok {}) ∧
    (FLAG_GUID ∉ lines → from_triplet_lines lines = Except.ok {}) ∧
    (FLAG_GUID ∉ pre →
      from_triplet_lines (pre ++ FLAG_GUID :: post) = read_pre_build_lines post {}) ∧
    ({} : PreBuildInfo).target_architecture = "" ∧
    ({} : PreBuildInfo).cmake_system_name = "" ∧
    ({} : PreBuildInfo).cmake_system_version = "" ∧
    ({} : PreBuildInfo).platform_toolset = none ∧
    ({} : PreBuildInfo).visual_studio_path = none := by
  refine ⟨?_, ?_, ?_, rfl, rfl, rfl, rfl, rfl⟩
  · intro h
    unfold from_triplet_file from_triplet_lines
    rw [dropThroughSentinel_of_not_mem _ h]
    rfl
  · intro h
    unfold from_triplet_lines
    rw [dropThroughSentinel_of_not_mem _ h]
    rfl
  · intro h
    unfold from_triplet_lines
    rw [dropThroughSentinel_append _ _ h]

/-- C10 witness: concrete discarded garbage before a present sentinel, and a
sentinel-free output parsing to the all-defaults record. -/
theorem C10_sentinel_handling_witness :
    (FLAG_GUID ∉ stringsSplit "-- Configuring done\n-- Generating done" '\n' ∧
      from_triplet_file "-- Configuring done\n-- Generating done" = Except.ok {}) ∧
    (FLAG_GUID ∉ ["not=a recognized line"] ∧
      from_triplet_lines
          (["not=a recognized line"] ++ FLAG_GUID :: ["VCPKG_TARGET_ARCHITECTURE=x64"]) =
        read_pre_build_lines ["VCPKG_TARGET_ARCHITECTURE=x64"] {}) := by
  have h1 := (C10_sentinel_handling "-- Configuring done\n-- Generating done"
    [] ["not=a recognized line"] ["VCPKG_TARGET_ARCHITECTURE=x64"]).1
  have h3 := (C10_sentinel_handling "-- Configuring done\n-- Generating done"
    [] ["not=a recognized line"] ["VCPKG_TARGET_ARCHITECTURE=x64"]).2.2.1
  exact ⟨⟨by decide, h1 (by decide)⟩, ⟨by decide, h3 (by decide)⟩⟩

/-! ### Claim C2 -/

/-- C2 counterexample: the dependency scan of `build_package` is not
transitive.  With port `a` depending on `b` and port `b` depending on `c`,
and a status database in which `b` is installed but `c` is not, the
transitive dependency `c` of the depends list of `a` is missing, yet
`build_package` for `a` proceeds to the build step instead of returning
`CASCADED_DUE_TO_MISSING_DEPENDENCIES`. -/
theorem C2_counterexample :
    "c" ∈ spec_transitive_depends
        [("a", [{ name := "b" }]), ("b", [{ name := "c" }])] "x64-windows" 3
        (filter_dependencies [{ name := "b" }] "x64-windows") ∧
    find_installed
        [{ package := { name := "b", version := "1", triplet := "x64-windows" },
           want := Want.INSTALL, state := InstallState.INSTALLED }] "c" "x64-windows" = false ∧
    (build_package
        { src := { name := "a", depends := [{ name := "b" }] }, triplet := "x64-windows" }
        [{ package := { name := "b", version := "1", triplet := "x64-windows" },
           want := Want.INSTALL, state := InstallState.INSTALLED }]
        { exitCode := 0, lintErrorCount := 0 }).ranBuild = true ∧
    (build_package
        { src := { name := "a", depends := [{ name := "b" }] }, triplet := "x64-windows" }
        [{ package := { name := "b", version := "1", triplet := "x64-windows" },
           want := Want.INSTALL, state := InstallState.INSTALLED }]
        { exitCode := 0, lintErrorCount := 0 }).result.code ≠
      BuildResult.CASCADED_DUE_TO_MISSING_DEPENDENCIES := by
  refine ⟨by decide, by decide, rfl, by decide⟩

/-- C2 (amended): `build_package` returns
`CASCADED_DUE_TO_MISSING_DEPENDENCIES` together with the missing specs, and
performs no build step, whenever any direct dependency of the depends list
(after filtering by the triplet qualifier predicates) is not currently
recorded as installed in the status database; it proceeds to the build step
exactly when every such direct dependency is installed.  (The source only
scans `config.src.depends`; transitive closure is not computed.) -/
theorem C2_direct_dependency_scan (config : BuildPackageConfig)
    (status_db : List StatusParagraph) (ext : BuildExternals) :
    (missing_specs config status_db ≠ [] →
      build_package config status_db ext =
        { result := { code := BuildResult.CASCADED_DUE_TO_MISSING_DEPENDENCIES
                      unmet_dependencies := missing_specs config status_db }
          ranBuild := false
          wroteControlFile := false }) ∧
    (missing_specs config status_db = [] →
      (build_package config status_db ext).ranBuild = true) := by
  constructor
  · intro h
    have hne : (missing_specs config status_db).isEmpty = false := by
      cases hm : missing_specs config status_db with
      | nil => exact absurd hm h
      | cons a l => rfl
    unfold build_package
    rw [hne]
    rfl
  · intro h
    have he : (missing_specs config status_db).isEmpty = true := by rw [h]; rfl
    unfold build_package
    rw [he]
    simp only [Bool.not_true, Bool.false_eq_true, if_false]
    split_ifs <;> rfl

/-- C2 witness: a concrete missing direct dependency produces the cascade
with the missing list and no build. -/
theorem C2_direct_dependency_scan_witness :
    missing_specs
        { src := { name := "a", depends := [{ name := "b" }] }, triplet := "x64-windows" }
        [] ≠ [] ∧
    build_package
        { src := { name := "a", depends := [{ name := "b" }] }, triplet := "x64-windows" }
        [] { exitCode := 0, lintErrorCount := 0 } =
      { result := { code := BuildResult.CASCADED_DUE_TO_MISSING_DEPENDENCIES
                    unmet_dependencies := [{ name := "b", triplet := "x64-windows" }] }
        ranBuild := false
        wroteControlFile := false } := by
  have h := (C2_direct_dependency_scan
    { src := { name := "a", depends := [{ name := "b" }] }, triplet := "x64-windows" }
    [] { exitCode := 0, lintErrorCount := 0 }).1 (by decide)
  exact ⟨by decide, by rw [h]; rfl⟩

/-! ### Claim C3 -/

/-- C3: once `build_package` reaches the external build step, a nonzero
child exit code yields `BUILD_FAILED`; a zero exit code with a nonzero
post-build lint error count yields `POST_BUILD_CHECKS_FAILED` with no binary
control file written to the package sandbox; and a zero exit code with zero
lint errors writes the binary control file and yields `SUCCEEDED`. -/
theorem C3_result_classification (config : BuildPackageConfig)
    (status_db : List StatusParagraph) (ext : BuildExternals)
    (h : (build_package config status_db ext).ranBuild = true) :
    (ext.exitCode ≠ 0 →
      build_package config status_db ext =
        { result := { code := BuildResult.BUILD_FAILED }
          ranBuild := true, wroteControlFile := false }) ∧
    (ext.exitCode = 0 → ext.lintErrorCount ≠ 0 →
      build_package config status_db ext =
        { result := { code := BuildResult.POST_BUILD_CHECKS_FAILED }
          ranBuild := true, wroteControlFile := false }) ∧
    (ext.exitCode = 0 → ext.lintErrorCount = 0 →
      build_package config status_db ext =
        { result := { code := BuildResult.SUCCEEDED }
          ranBuild := true, wroteControlFile := true }) := by
  have he : (missing_specs config status_db).isEmpty = true := by
    by_contra hne
    have hne' : (missing_specs config status_db).isEmpty = false :=
      Bool.eq_false_iff.mpr hne
    unfold build_package at h
    rw [hne'] at h
    simp at h
  refine ⟨?_, ?_, ?_⟩
  · intro hx
    unfold build_package
    rw [he]
    simp only [Bool.not_true, Bool.false_eq_true, if_false]
    rw [if_pos hx]
  · intro hx hl
    unfold build_package
    rw [he]
    simp only [Bool.not_true, Bool.false_eq_true, if_false]
    rw [if_neg (by rw [hx]; exact fun hc => hc rfl), if_pos hl]
  · intro hx hl
    unfold build_package
    rw [he]
    simp only [Bool.not_true, Bool.false_eq_true, if_false]
    rw [if_neg (by rw [hx]; exact fun hc => hc rfl),
      if_neg (by rw [hl]; exact fun hc => hc rfl)]

/-- C3 witness: with no dependencies the build step runs, and concrete
externals hit each of the three classifications. -/
theorem C3_result_classification_witness :
    (build_package { src := { name := "zlib" }, triplet := "x64-windows" } []
        { exitCode := 1, lintErrorCount := 0 }).ranBuild = true ∧
    build_package { src := { name := "zlib" }, triplet := "x64-windows" } []
        { exitCode := 1, lintErrorCount := 0 } =
      { result := { code := BuildResult.BUILD_FAILED }
        ranBuild := true, wroteControlFile := false } ∧
    build_package { src := { name := "zlib" }, triplet := "x64-windows" } []
        { exitCode := 0, lintErrorCount := 2 } =
      { result := { code := BuildResult.POST_BUILD_CHECKS_FAILED }
        ranBuild := true, wroteControlFile := false } ∧
    build_package { src := { name := "zlib" }, triplet := "x64-windows" } []
        { exitCode := 0, lintErrorCount := 0 } =
      { result := { code := BuildResult.SUCCEEDED }
        ranBuild := true, wroteControlFile := true } := by
  refine ⟨rfl, ?_, ?_, ?_⟩
  · exact (C3_result_classification { src := { name := "zlib" }, triplet := "x64-windows" }
      [] { exitCode := 1, lintErrorCount := 0 } rfl).1 (by decide)
  · exact (C3_result_classification { src := { name := "zlib" }, triplet := "x64-windows" }
      [] { exitCode := 0, lintErrorCount := 2 } rfl).2.1 rfl (by decide)
  · exact (C3_result_classification { src := { name := "zlib" }, triplet := "x64-windows" }
      [] { exitCode := 0, lintErrorCount := 0 } rfl).2.2 rfl rfl

/-! ### Claim C5 -/

theorem perform_keep_going {σ ι ρ : Type} (istep : σ → ι → BuildResult × σ)
    (rstep : σ → ρ → σ) :
    ∀ (plan : List (AnyAction ι ρ)) (s : σ),
      perform_and_exit_ex istep rstep KeepGoing.YES plan s =
        (runAll istep rstep plan s, plan, stateAfter istep rstep plan s, false)
  | [], s => rfl
  | AnyAction.install ia :: rest, s => by
    simp only [perform_and_exit_ex, runAll, stateAfter]
    rw [if_neg (fun h => KeepGoing.noConfusion h.2)]
    rw [perform_keep_going istep rstep rest (istep s ia).2]
  | AnyAction.remove ra :: rest, s => by
    simp only [perform_and_exit_ex, runAll, stateAfter]
    rw [perform_keep_going istep rstep rest (rstep s ra)]

theorem perform_fail_fast {σ ι ρ : Type} (istep : σ → ι → BuildResult × σ)
    (rstep : σ → ρ → σ) :
    ∀ (plan : List (AnyAction ι ρ)) (s : σ),
      ((perform_and_exit_ex istep rstep KeepGoing.NO plan s).2.2.2 = false →
        (perform_and_exit_ex istep rstep KeepGoing.NO plan s).2.1 = plan ∧
        ∀ p1 ia p2, plan = p1 ++ AnyAction.install ia :: p2 →
          (istep (stateAfter istep rstep p1 s) ia).1 = BuildResult.SUCCEEDED) ∧
      ((perform_and_exit_ex istep rstep KeepGoing.NO plan s).2.2.2 = true →
        ∃ p1 ia,
          (perform_and_exit_ex istep rstep KeepGoing.NO plan s).2.1 =
            p1 ++ [AnyAction.install ia] ∧
          plan.take (p1.length + 1) = p1 ++ [AnyAction.install ia] ∧
          (istep (stateAfter istep rstep p1 s) ia).1 ≠ BuildResult.SUCCEEDED ∧
          ∀ q1 ja q2, p1 = q1 ++ AnyAction.install ja :: q2 →
            (istep (stateAfter istep rstep q1 s) ja).1 = BuildResult.SUCCEEDED)
  | [], s => by
    constructor
    · intro _
      refine ⟨rfl, ?_⟩
      intro p1 ia p2 h
      simp at h
    · intro h
      cases h
  | AnyAction.install ia :: rest, s => by
    by_cases hs : (istep s ia).1 = BuildResult.SUCCEEDED
    · have ih := perform_fail_fast istep rstep rest (istep s ia).2
      have hstep : perform_and_exit_ex istep rstep KeepGoing.NO
          (AnyAction.install ia :: rest) s =
          ((istep s ia).1 ::
              (perform_and_exit_ex istep rstep KeepGoing.NO rest (istep s ia).2).1,
            AnyAction.install ia ::
              (perform_and_exit_ex istep rstep KeepGoing.NO rest (istep s ia).2).2.1,
            (perform_and_exit_ex istep rstep KeepGoing.NO rest (istep s ia).2).2.2.1,
            (perform_and_exit_ex istep rstep KeepGoing.NO rest (istep s ia).2).2.2.2) := by
        simp only [perform_and_exit_ex]
        rw [if_neg (fun hc => hc.1 hs)]
      rw [hstep]
      constructor
      · intro hab
        obtain ⟨h1, h2⟩ := ih.1 hab
        refine ⟨by rw [h1], ?_⟩
        intro p1 ja p2 h
        cases p1 with
        | nil =>
          simp only [List.nil_append, List.cons.injEq] at h
          obtain ⟨hja, _⟩ := h
          cases hja
          exact hs
        | cons b p1' =>
          simp only [List.cons_append, List.cons.injEq] at h
          obtain ⟨hb, hrest⟩ := h
          cases hb
          exact h2 p1' ja p2 hrest
      · intro hab
        obtain ⟨p1, ja, hap, htake, hfail, hprev⟩ := ih.2 hab
        refine ⟨AnyAction.install ia :: p1, ja, ?_, ?_, hfail, ?_⟩
        · rw [hap, List.cons_append]
        · simp only [List.length_cons, List.take_succ_cons, List.cons_append]
          rw [htake]
        · intro q1 ka q2 h
          cases q1 with
          | nil =>
            simp only [List.nil_append, List.cons.injEq] at h
            obtain ⟨hka, _⟩ := h
            cases hka
            exact hs
          | cons b q1' =>
            simp only [List.cons_append, List.cons.injEq] at h
            obtain ⟨hb, hrest⟩ := h
            cases hb
            exact hprev q1' ka q2 hrest
    · have hstep : perform_and_exit_ex istep rstep KeepGoing.NO
          (AnyAction.install ia :: rest) s =
          ([BuildResult.NULLVALUE], [AnyAction.install ia], (istep s ia).2, true) := by
        simp only [perform_and_exit_ex]
        rw [if_pos ⟨hs, trivial⟩]
      rw [hstep]
      constructor
      · intro hab
        cases hab
      · intro _
        refine ⟨[], ia, rfl, rfl, hs, ?_⟩
        intro q1 ja q2 h
        simp at h
  | AnyAction.remove ra :: rest, s => by
    have ih := perform_fail_fast istep rstep rest (rstep s ra)
    have hstep : perform_and_exit_ex istep rstep KeepGoing.NO
        (AnyAction.remove ra :: rest) s =
        (BuildResult.NULLVALUE ::
            (perform_and_exit_ex istep rstep KeepGoing.NO rest (rstep s ra)).1,
          AnyAction.remove ra ::
            (perform_and_exit_ex istep rstep KeepGoing.NO rest (rstep s ra)).2.1,
          (perform_and_exit_ex istep rstep KeepGoing.NO rest (rstep s ra)).2.2.1,
          (perform_and_exit_ex istep rstep KeepGoing.NO rest (rstep s ra)).2.2.2) := by
      simp only [perform_and_exit_ex]
    rw [hstep]
    constructor
    · intro hab
      obtain ⟨h1, h2⟩ := ih.1 hab
      refine ⟨by rw [h1], ?_⟩
      intro p1 ja p2 h
      cases p1 with
      | nil => simp at h
      | cons b p1' =>
        simp only [List.cons_append, List.cons.injEq] at h
        obtain ⟨hb, hrest⟩ := h
        cases hb
        exact h2 p1' ja p2 hrest
    · intro hab
      obtain ⟨p1, ja, hap, htake, hfail, hprev⟩ := ih.2 hab
      refine ⟨AnyAction.remove ra :: p1, ja, ?_, ?_, hfail, ?_⟩
      · rw [hap, List.cons_append]
      · simp only [List.length_cons, List.take_succ_cons, List.cons_append]
        rw [htake]
      · intro q1 ka q2 h
        cases q1 with
        | nil => simp at h
        | cons b q1' =>
          simp only [List.cons_append, List.cons.injEq] at h
          obtain ⟨hb, hrest⟩ := h
          cases hb
          exact hprev q1' ka q2 hrest

theorem perform_applied_is_take {σ ι ρ : Type} (istep : σ → ι → BuildResult × σ)
    (rstep : σ → ρ → σ) (keep_going : KeepGoing) :
    ∀ (plan : List (AnyAction ι ρ)) (s : σ),
      ∃ k, (perform_and_exit_ex istep rstep keep_going plan s).2.1 = plan.take k ∧
        k ≤ plan.length
  | [], s => ⟨0, rfl, Nat.le_refl 0⟩
  | AnyAction.install ia :: rest, s => by
    by_cases hr : (istep s ia).1 ≠ BuildResult.SUCCEEDED ∧ keep_going = KeepGoing.NO
    · exact ⟨1, by simp only [perform_and_exit_ex, if_pos hr, List.take_succ_cons,
        List.take_zero], by simp⟩
    · obtain ⟨k, hk, hkle⟩ := perform_applied_is_take istep rstep keep_going rest (istep s ia).2
      exact ⟨k + 1, by simp only [perform_and_exit_ex, if_neg hr, List.take_succ_cons, hk],
        by simpa using hkle⟩
  | AnyAction.remove ra :: rest, s => by
    obtain ⟨k, hk, hkle⟩ := perform_applied_is_take istep rstep keep_going rest (rstep s ra)
    exact ⟨k + 1, by simp only [perform_and_exit_ex, List.take_succ_cons, hk],
      by simpa using hkle⟩

/-- C5: the executor walks the plan strictly sequentially (the applied
actions are always an order-preserving front segment of the plan); with
`keep_going = NO`, an install action whose result is not `SUCCEEDED` aborts
the process right there, so the failing action is the last one applied and no
later action runs, while a non-aborting run applied the whole plan with
every install action succeeding; with `keep_going = YES` the loop never
aborts, applies every action of the plan in order, and records the result of
each action (the `runAll` sequence, which keeps each failing result). -/
theorem C5_executor_sequencing {σ ι ρ : Type} (istep : σ → ι → BuildResult × σ)
    (rstep : σ → ρ → σ) (keep_going : KeepGoing) (plan : List (AnyAction ι ρ)) (s : σ) :
    (∃ k, (perform_and_exit_ex istep rstep keep_going plan s).2.1 = plan.take k ∧
      k ≤ plan.length) ∧
    (keep_going = KeepGoing.YES →
      perform_and_exit_ex istep rstep keep_going plan s =
        (runAll istep rstep plan s, plan, stateAfter istep rstep plan s, false)) ∧
    (keep_going = KeepGoing.NO →
      ((perform_and_exit_ex istep rstep keep_going plan s).2.2.2 = false →
        (perform_and_exit_ex istep rstep keep_going plan s).2.1 = plan ∧
        ∀ p1 ia p2, plan = p1 ++ AnyAction.install ia :: p2 →
          (istep (stateAfter istep rstep p1 s) ia).1 = BuildResult.SUCCEEDED) ∧
      ((perform_and_exit_ex istep rstep keep_going plan s).2.2.2 = true →
        ∃ p1 ia,
          (perform_and_exit_ex istep rstep keep_going plan s).2.1 =
            p1 ++ [AnyAction.install ia] ∧
          plan.take (p1.length + 1) = p1 ++ [AnyAction.install ia] ∧
          (istep (stateAfter istep rstep p1 s) ia).1 ≠ BuildResult.SUCCEEDED ∧
          ∀ q1 ja q2, p1 = q1 ++ AnyAction.install ja :: q2 →
            (istep (stateAfter istep rstep q1 s) ja).1 = BuildResult.SUCCEEDED)) := by
  refine ⟨perform_applied_is_take istep rstep keep_going plan s, ?_, ?_⟩
  · intro h
    subst h
    exact perform_keep_going istep rstep plan s
  · intro h
    subst h
    exact perform_fail_fast istep rstep plan s

/-- C5 witness: a concrete keep-going run applies the whole plan and records
the failing result, and a concrete fail-fast run stops at the first failing
install action. -/
theorem C5_executor_sequencing_witness :
    perform_and_exit_ex (fun (s : Nat) (i : Nat) => (BuildResult.BUILD_FAILED, s + i))
        (fun s _ => s) KeepGoing.YES
        [AnyAction.install 1, AnyAction.remove 7, AnyAction.install 2] 0 =
      (runAll (fun (s : Nat) (i : Nat) => (BuildResult.BUILD_FAILED, s + i)) (fun s _ => s)
          [AnyAction.install 1, AnyAction.remove 7, AnyAction.install 2] 0,
        [AnyAction.install 1, AnyAction.remove 7, AnyAction.install 2],
        stateAfter (fun (s : Nat) (i : Nat) => (BuildResult.BUILD_FAILED, s + i)) (fun s _ => s)
          [AnyAction.install 1, AnyAction.remove 7, AnyAction.install 2] 0,
        false) :=
  (C5_executor_sequencing (fun (s : Nat) (i : Nat) => (BuildResult.BUILD_FAILED, s + i))
    (fun s _ => s) KeepGoing.YES
    [AnyAction.install 1, AnyAction.remove 7, AnyAction.install 2] 0).2.1 rfl

/-! ### Claim C1 -/

/-- C1: when the sorted intersection of the package-sandbox file list and the
already-installed file list for the triplet is non-empty, `install_package`
returns `FILE_CONFLICTS` having performed no event at all: no status record
is journaled or inserted (so no `HALF_INSTALLED` record exists for the
package or any feature), no directory is created, no file is copied, no
listfile is written, and the status database is returned unchanged. -/
theorem C1_conflict_returns_untouched (paths : VcpkgPathsModel) (bcf : BinaryControlFile)
    (status_db : List StatusParagraph) (entries : List FSEntry)
    (pgh_and_files : List (String × List String)) (source_exists : Bool)
    (h : setIntersection
        (build_list_of_package_files (entries.map (fun e => e.path))
          (package_dir paths bcf.core_paragraph))
        (build_list_of_installed_files pgh_and_files bcf.core_paragraph.triplet) ≠ []) :
    install_package paths bcf status_db entries pgh_and_files source_exists =
      ([], some (InstallResult.FILE_CONFLICTS, status_db)) := by
  have hne : (setIntersection
      (build_list_of_package_files (entries.map (fun e => e.path))
        (package_dir paths bcf.core_paragraph))
      (build_list_of_installed_files pgh_and_files bcf.core_paragraph.triplet)).isEmpty =
      false := by
    cases hm : setIntersection
        (build_list_of_package_files (entries.map (fun e => e.path))
          (package_dir paths bcf.core_paragraph))
        (build_list_of_installed_files pgh_and_files bcf.core_paragraph.triplet) with
    | nil => exact absurd hm h
    | cons a l => rfl
  simp only [install_package]
  rw [hne]
  rfl

/-- C1 witness: a concrete conflicting file (`bin/tool.exe` both in the
sandbox and recorded installed for the triplet) triggers the conflict exit
with database unchanged. -/
theorem C1_conflict_returns_untouched_witness :
    setIntersection
        (build_list_of_package_files
          (List.map (fun e => e.path)
            [{ path := "pk/q_x86/bin/tool.exe", status := some FileType.regular,
               targetExists := false : FSEntry}])
          (package_dir { packages := "pk", installed := "inst", vcpkg_dir_info := "info" }
            { name := "q", version := "1", triplet := "x86" }))
        (build_list_of_installed_files [("x86", ["x86/bin/tool.exe"])] "x86") ≠ [] ∧
    install_package { packages := "pk", installed := "inst", vcpkg_dir_info := "info" }
        { core_paragraph := { name := "q", version := "1", triplet := "x86" } }
        [] [{ path := "pk/q_x86/bin/tool.exe", status := some FileType.regular,
              targetExists := false }]
        [("x86", ["x86/bin/tool.exe"])] true =
      ([], some (InstallResult.FILE_CONFLICTS, [])) :=
  ⟨by decide,
   C1_conflict_returns_untouched
     { packages := "pk", installed := "inst", vcpkg_dir_info := "info" }
     { core_paragraph := { name := "q", version := "1", triplet := "x86" } }
     [] [{ path := "pk/q_x86/bin/tool.exe", status := some FileType.regular,
           targetExists := false }]
     [("x86", ["x86/bin/tool.exe"])] true (by decide)⟩

/-! ### Claim C7 -/

theorem strLt_connex (a b : String) (h1 : strLt a b = false) (h2 : strLt b a = false) :
    a = b := by
  unfold strLt at h1 h2
  have := charListLt_connex a.data b.data h1 h2
  cases a
  cases b
  exact congrArg String.mk this

theorem siInner_subset (sa : List String → List String) (a : String)
    (hsa : ∀ (ys : List String) (x : String), x ∈ sa ys → x ∈ ys) :
    ∀ (bs : List String) (x : String), x ∈ siInner sa a bs → x ∈ bs
  | [], x, h => by
    simp only [siInner] at h
    cases h
  | b :: bs, x, h => by
    simp only [siInner] at h
    split_ifs at h with h1 h2
    · exact hsa (b :: bs) x h
    · exact List.mem_cons_of_mem b (siInner_subset sa a hsa bs x h)
    · rcases List.mem_cons.mp h with hx | hx
      · have hab : a = b :=
          strLt_connex a b (Bool.eq_false_iff.mpr h1) (Bool.eq_false_iff.mpr h2)
        rw [hx, hab]
        exact List.mem_cons_self _ _
      · exact List.mem_cons_of_mem b (hsa bs x hx)

theorem setIntersection_subset_right :
    ∀ (as bs : List String) (x : String), x ∈ setIntersection as bs → x ∈ bs
  | [], bs, x, h => by
    simp only [setIntersection] at h
    cases h
  | a :: as, bs, x, h => by
    simp only [setIntersection] at h
    exact siInner_subset (setIntersection as) a (setIntersection_subset_right as) bs x h

/-- C7 counterexample: `build_list_of_package_files` excludes nothing; the
`CONTROL` and `BUILD_INFO` files of the sandbox are part of the conflict-scan
enumeration. -/
theorem C7_counterexample :
    "CONTROL" ∈ build_list_of_package_files
        ["pkg/CONTROL", "pkg/BUILD_INFO", "pkg/include/a.h"] "pkg" ∧
    "BUILD_INFO" ∈ build_list_of_package_files
        ["pkg/CONTROL", "pkg/BUILD_INFO", "pkg/include/a.h"] "pkg" := by
  decide

/-- C7 (amended): the conflict scan enumerates every file of the package
sandbox relative to the sandbox root with no exclusion, `CONTROL` and
`BUILD_INFO` included (the result is a sorted permutation of all stripped
paths); the two files are excluded only later, when the listfile is written,
so whenever the installed-file side contains no entry whose filename is
(case-insensitively) `CONTROL` or `BUILD_INFO` — which holds for listfiles
produced by the installer — the intersection contains no such entry either,
because every element of the intersection comes from the installed side. -/
theorem C7_no_exclusion_in_scan (package_file_paths : List String) (pkg_dir : String)
    (package_files installed_files : List String)
    (hB : ∀ y ∈ installed_files,
      ciEq (filenameOf y) "CONTROL" = false ∧ ciEq (filenameOf y) "BUILD_INFO" = false) :
    (build_list_of_package_files package_file_paths pkg_dir).Perm
      (package_file_paths.map (fun p => substrFrom p (strLen pkg_dir + 1))) ∧
    ∀ x ∈ setIntersection package_files installed_files,
      ciEq (filenameOf x) "CONTROL" = false ∧ ciEq (filenameOf x) "BUILD_INFO" = false := by
  constructor
  · exact List.perm_insertionSort _ _
  · intro x hx
    exact hB x (setIntersection_subset_right package_files installed_files x hx)

/-- C7 witness: a sandbox containing `CONTROL` is enumerated in full, and a
control-free installed side keeps the intersection control-free. -/
theorem C7_no_exclusion_in_scan_witness :
    (∀ y ∈ ["bin/tool.exe"],
      ciEq (filenameOf y) "CONTROL" = false ∧ ciEq (filenameOf y) "BUILD_INFO" = false) ∧
    (build_list_of_package_files ["pkg/CONTROL", "pkg/include/a.h"] "pkg").Perm
      (List.map (fun p => substrFrom p (strLen "pkg" + 1))
        ["pkg/CONTROL", "pkg/include/a.h"]) ∧
    ∀ x ∈ setIntersection ["CONTROL", "bin/tool.exe"] ["bin/tool.exe"],
      ciEq (filenameOf x) "CONTROL" = false ∧ ciEq (filenameOf x) "BUILD_INFO" = false :=
  ⟨by decide,
   (C7_no_exclusion_in_scan ["pkg/CONTROL", "pkg/include/a.h"] "pkg"
     ["CONTROL", "bin/tool.exe"] ["bin/tool.exe"] (by decide)).1,
   (C7_no_exclusion_in_scan ["pkg/CONTROL", "pkg/include/a.h"] "pkg"
     ["CONTROL", "bin/tool.exe"] ["bin/tool.exe"] (by decide)).2⟩

/-! ### Unfolding lemmas for the copy loop -/

theorem copy_loop_cons_statusError (n : Nat) (d s : String) (p : String) (tex : Bool)
    (rest : List FSEntry) :
    copy_loop n d s ({ path := p, status := none, targetExists := tex } :: rest) =
      ((copy_loop n d s rest).1, Event.statusError p :: (copy_loop n d s rest).2) := by
  simp only [copy_loop]

theorem copy_loop_cons_skip (n : Nat) (d s : String) (p : String) (tex : Bool)
    (rest : List FSEntry)
    (h : ciEq (filenameOf p) "CONTROL" = true ∨ ciEq (filenameOf p) "BUILD_INFO" = true) :
    copy_loop n d s ({ path := p, status := some FileType.regular, targetExists := tex } :: rest) =
      copy_loop n d s rest := by
  simp only [copy_loop]
  rw [if_pos ⟨trivial, h⟩]

theorem copy_loop_cons_dir (n : Nat) (d s : String) (p : String) (tex : Bool)
    (rest : List FSEntry) :
    copy_loop n d s
        ({ path := p, status := some FileType.directory, targetExists := tex } :: rest) =
      ((s ++ "/" ++ substrFrom p (n + 1) ++ "/") :: (copy_loop n d s rest).1,
        Event.createDir (d ++ "/" ++ substrFrom p (n + 1)) :: (copy_loop n d s rest).2) := by
  simp only [copy_loop]
  rw [if_neg (fun hc => FileType.noConfusion hc.1)]

theorem copy_loop_cons_regular (n : Nat) (d s : String) (p : String) (tex : Bool)
    (rest : List FSEntry)
    (h1 : ciEq (filenameOf p) "CONTROL" = false)
    (h2 : ciEq (filenameOf p) "BUILD_INFO" = false) :
    copy_loop n d s ({ path := p, status := some FileType.regular, targetExists := tex } :: rest) =
      ((s ++ "/" ++ substrFrom p (n + 1)) :: (copy_loop n d s rest).1,
        (if tex then [Event.warnOverwrite (d ++ "/" ++ substrFrom p (n + 1))] else []) ++
          Event.copyFile p (d ++ "/" ++ substrFrom p (n + 1)) true ::
            (copy_loop n d s rest).2) := by
  simp only [copy_loop]
  rw [if_neg (fun hc => by
    rcases hc.2 with hx | hx
    · rw [h1] at hx; cases hx
    · rw [h2] at hx; cases hx)]

theorem copy_loop_cons_other (n : Nat) (d s : String) (p : String) (tex : Bool)
    (rest : List FSEntry) :
    copy_loop n d s ({ path := p, status := some FileType.other, targetExists := tex } :: rest) =
      ((copy_loop n d s rest).1, Event.skipUnknown p :: (copy_loop n d s rest).2) := by
  simp only [copy_loop]
  rw [if_neg (fun hc => FileType.noConfusion hc.1)]

theorem copy_loop_events_mono (n : Nat) (d s : String) (f : FSEntry) (rest : List FSEntry)
    (ev : Event) (h : ev ∈ (copy_loop n d s rest).2) :
    ev ∈ (copy_loop n d s (f :: rest)).2 := by
  obtain ⟨p, st, tex⟩ := f
  cases st with
  | none =>
    rw [copy_loop_cons_statusError]
    exact List.mem_cons_of_mem _ h
  | some ft =>
    cases ft with
    | directory =>
      rw [copy_loop_cons_dir]
      exact List.mem_cons_of_mem _ h
    | other =>
      rw [copy_loop_cons_other]
      exact List.mem_cons_of_mem _ h
    | regular =>
      by_cases hc : ciEq (filenameOf p) "CONTROL" = true ∨ ciEq (filenameOf p) "BUILD_INFO" = true
      · rw [copy_loop_cons_skip n d s p tex rest hc]
        exact h
      · push_neg at hc
        rw [copy_loop_cons_regular n d s p tex rest
          (Bool.eq_false_iff.mpr hc.1) (Bool.eq_false_iff.mpr hc.2)]
        exact List.mem_append_right _ (List.mem_cons_of_mem _ h)

theorem copy_loop_lines_mono (n : Nat) (d s : String) (f : FSEntry) (rest : List FSEntry)
    (l : String) (h : l ∈ (copy_loop n d s rest).1) :
    l ∈ (copy_loop n d s (f :: rest)).1 := by
  obtain ⟨p, st, tex⟩ := f
  cases st with
  | none =>
    rw [copy_loop_cons_statusError]
    exact h
  | some ft =>
    cases ft with
    | directory =>
      rw [copy_loop_cons_dir]
      exact List.mem_cons_of_mem _ h
    | other =>
      rw [copy_loop_cons_other]
      exact h
    | regular =>
      by_cases hc : ciEq (filenameOf p) "CONTROL" = true ∨ ciEq (filenameOf p) "BUILD_INFO" = true
      · rw [copy_loop_cons_skip n d s p tex rest hc]
        exact h
      · push_neg at hc
        rw [copy_loop_cons_regular n d s p tex rest
          (Bool.eq_false_iff.mpr hc.1) (Bool.eq_false_iff.mpr hc.2)]
        exact List.mem_cons_of_mem _ h

theorem copy_loop_mem_regular (n : Nat) (d s : String) :
    ∀ (entries : List FSEntry) (e : FSEntry), e ∈ entries →
      e.status = some FileType.regular →
      ciEq (filenameOf e.path) "CONTROL" = false →
      ciEq (filenameOf e.path) "BUILD_INFO" = false →
      Event.copyFile e.path (d ++ "/" ++ substrFrom e.path (n + 1)) true ∈
        (copy_loop n d s entries).2 ∧
      (e.targetExists = true →
        Event.warnOverwrite (d ++ "/" ++ substrFrom e.path (n + 1)) ∈
          (copy_loop n d s entries).2)
  | [], e, he, _, _, _ => absurd he (List.not_mem_nil e)
  | f :: rest, e, he, hreg, h1, h2 => by
    rcases List.mem_cons.mp he with hef | hemem
    · subst hef
      obtain ⟨p, st, tex⟩ := e
      simp only at hreg h1 h2
      subst hreg
      rw [copy_loop_cons_regular n d s p tex rest h1 h2]
      constructor
      · exact List.mem_append_right _ (List.mem_cons_self _ _)
      · intro htex
        simp only at htex
        subst htex
        exact List.mem_append_left _ (List.mem_cons_self _ _)
    · have ih := copy_loop_mem_regular n d s rest e hemem hreg h1 h2
      exact ⟨copy_loop_events_mono n d s f rest _ ih.1,
        fun htex => copy_loop_events_mono n d s f rest _ (ih.2 htex)⟩

/-! ### Claim C6 -/

/-- C6 counterexample: a regular file already present at the target path is
not fatal.  The copy step prints a warning and copies with
`fs::copy_options::overwrite_existing`; the run completes and writes the
listfile. -/
theorem C6_counterexample :
    install_files_and_write_listfile "pkg"
        [{ path := "pkg/bin/tool.exe", status := some FileType.regular, targetExists := true }]
        "inst/x86-windows" "x86-windows" "info/q_1_x86-windows.list" true =
      some (["x86-windows/", "x86-windows/bin/tool.exe"],
        [Event.createDir "inst/x86-windows",
         Event.warnOverwrite "inst/x86-windows/bin/tool.exe",
         Event.copyFile "pkg/bin/tool.exe" "inst/x86-windows/bin/tool.exe" true,
         Event.writeListfile "info/q_1_x86-windows.list"
           ["x86-windows/", "x86-windows/bin/tool.exe"]]) := by
  rfl

/-- C6 (amended): during the copy step, a regular file already existing at a
target path is overwritten, not fatal: the function still returns (no abort
path exists for collisions; only a missing source directory aborts), a
warning event naming the target is emitted when the target exists, and the
file is copied with overwrite-existing semantics regardless.  Directories are
created with `create_directory`, tolerating pre-existing directories. -/
theorem C6_collision_overwrites (source_dir : String) (entries : List FSEntry)
    (destination destsub listfile : String) :
    ∃ lines events,
      install_files_and_write_listfile source_dir entries destination destsub listfile true =
        some (lines, events) ∧
      ∀ e ∈ entries, e.status = some FileType.regular →
        ciEq (filenameOf e.path) "CONTROL" = false →
        ciEq (filenameOf e.path) "BUILD_INFO" = false →
        Event.copyFile e.path
            (destination ++ "/" ++ substrFrom e.path (strLen source_dir + 1)) true ∈ events ∧
        (e.targetExists = true →
          Event.warnOverwrite
              (destination ++ "/" ++ substrFrom e.path (strLen source_dir + 1)) ∈ events) := by
  refine ⟨_, _, rfl, ?_⟩
  intro e he hreg h1 h2
  have hm := copy_loop_mem_regular (strLen source_dir) destination destsub entries e he
    hreg h1 h2
  constructor
  · exact List.mem_cons_of_mem _ (List.mem_append_left _ hm.1)
  · intro htex
    exact List.mem_cons_of_mem _ (List.mem_append_left _ (hm.2 htex))

/-- C6 witness: the amended behavior at a concrete colliding input. -/
theorem C6_collision_overwrites_witness :
    ∃ lines events,
      install_files_and_write_listfile "pkg"
          [{ path := "pkg/bin/tool.exe", status := some FileType.regular,
             targetExists := true }]
          "inst/x86-windows" "x86-windows" "info/q_1_x86-windows.list" true =
        some (lines, events) ∧
      Event.copyFile "pkg/bin/tool.exe" "inst/x86-windows/bin/tool.exe" true ∈ events ∧
      Event.warnOverwrite "inst/x86-windows/bin/tool.exe" ∈ events := by
  obtain ⟨lines, events, heq, hmem⟩ := C6_collision_overwrites "pkg"
    [{ path := "pkg/bin/tool.exe", status := some FileType.regular, targetExists := true }]
    "inst/x86-windows" "x86-windows" "info/q_1_x86-windows.list"
  have h := hmem (⟨"pkg/bin/tool.exe", some FileType.regular, true⟩ : FSEntry)
    (List.mem_cons_self _ _) rfl (by decide) (by decide)
  exact ⟨lines, events, heq, h.1, h.2 rfl⟩

/-! ### String lemmas for the listfile layout -/

theorem takeWhile_append_stop (p : Char → Bool) (c : Char) (hc : p c = false) :
    ∀ (a b : List Char), List.takeWhile p (a ++ c :: b) = List.takeWhile p a
  | [], b => by
    simp only [List.nil_append, List.takeWhile_cons, hc]
    rfl
  | x :: xs, b => by
    simp only [List.cons_append, List.takeWhile_cons]
    cases hp : p x with
    | false => rfl
    | true => rw [takeWhile_append_stop p c hc xs b]

theorem slashFalse : (fun ch => decide (ch ≠ '/')) '/' = false := by decide

theorem data_append_slash (x : String) : (x ++ "/").data = x.data ++ ['/'] := by
  rw [String.data_append]

theorem data_slash_append (x y : String) :
    (x ++ "/" ++ y).data = (x.data ++ ['/']) ++ y.data := by
  rw [String.data_append, data_append_slash]

theorem filenameOf_append_slash (x : String) : filenameOf (x ++ "/") = "" := by
  unfold filenameOf
  rw [data_append_slash, List.reverse_append]
  show String.mk (List.takeWhile _ ('/' :: x.data.reverse)).reverse = ""
  rw [List.takeWhile_cons, if_neg (by decide)]
  rfl

theorem filenameOf_slash_append (x y : String) :
    filenameOf (x ++ "/" ++ y) = filenameOf y := by
  unfold filenameOf
  rw [data_slash_append, List.reverse_append, List.reverse_append]
  show String.mk (List.takeWhile _ (y.data.reverse ++ '/' :: x.data.reverse)).reverse = _
  rw [takeWhile_append_stop _ '/' (by decide) y.data.reverse]

theorem substr_after_slash (a r : String) :
    substrFrom (a ++ "/" ++ r) (strLen a + 1) = r := by
  unfold substrFrom strLen
  rw [data_slash_append]
  have hlen : a.data.length + 1 = (a.data ++ ['/']).length := by
    rw [List.length_append]
    rfl
  rw [hlen, List.drop_left]

theorem getLast_append_slash (x : String) : (x ++ "/").data.getLast? = some '/' := by
  rw [data_append_slash]
  exact List.getLast?_concat x.data

theorem getLast_slash_append (x y : String) (h : y.data ≠ []) :
    (x ++ "/" ++ y).data.getLast? = y.data.getLast? := by
  rw [data_slash_append, List.getLast?_append]
  cases hy : y.data.getLast? with
  | none =>
    exfalso
    cases hd : y.data with
    | nil => exact h hd
    | cons c cs =>
      rw [hd] at hy
      simp [List.getLast?_eq_getLast _ (List.cons_ne_nil c cs)] at hy
  | some c => rfl

theorem getLast_cons_append_singleton {α : Type} (a b : α) (l : List α) :
    (a :: (l ++ [b])).getLast? = some b := by
  rw [show a :: (l ++ [b]) = (a :: l) ++ [b] from rfl]
  exact List.getLast?_concat _

/-! ### Shape of the listfile lines -/

theorem copy_loop_lines_shape (n : Nat) (d s : String) :
    ∀ (entries : List FSEntry) (l : String), l ∈ (copy_loop n d s entries).1 →
      (∃ e, e ∈ entries ∧ e.status = some FileType.directory ∧
        l = s ++ "/" ++ substrFrom e.path (n + 1) ++ "/") ∨
      (∃ e, e ∈ entries ∧ e.status = some FileType.regular ∧
        ciEq (filenameOf e.path) "CONTROL" = false ∧
        ciEq (filenameOf e.path) "BUILD_INFO" = false ∧
        l = s ++ "/" ++ substrFrom e.path (n + 1))
  | [], l, h => by
    simp only [copy_loop] at h
    cases h
  | f :: rest, l, h => by
    have lift :
        ((∃ e, e ∈ rest ∧ e.status = some FileType.directory ∧
            l = s ++ "/" ++ substrFrom e.path (n + 1) ++ "/") ∨
          (∃ e, e ∈ rest ∧ e.status = some FileType.regular ∧
            ciEq (filenameOf e.path) "CONTROL" = false ∧
            ciEq (filenameOf e.path) "BUILD_INFO" = false ∧
            l = s ++ "/" ++ substrFrom e.path (n + 1))) →
        ((∃ e, e ∈ f :: rest ∧ e.status = some FileType.directory ∧
            l = s ++ "/" ++ substrFrom e.path (n + 1) ++ "/") ∨
          (∃ e, e ∈ f :: rest ∧ e.status = some FileType.regular ∧
            ciEq (filenameOf e.path) "CONTROL" = false ∧
            ciEq (filenameOf e.path) "BUILD_INFO" = false ∧
            l = s ++ "/" ++ substrFrom e.path (n + 1))) := by
      rintro (⟨e, he, h2, h3⟩ | ⟨e, he, h2, h3, h4, h5⟩)
      · exact Or.inl ⟨e, List.mem_cons_of_mem f he, h2, h3⟩
      · exact Or.inr ⟨e, List.mem_cons_of_mem f he, h2, h3, h4, h5⟩
    obtain ⟨p, st, tex⟩ := f
    cases st with
    | none =>
      rw [copy_loop_cons_statusError] at h
      exact lift (copy_loop_lines_shape n d s rest l h)
    | some ft =>
      cases ft with
      | other =>
        rw [copy_loop_cons_other] at h
        exact lift (copy_loop_lines_shape n d s rest l h)
      | directory =>
        rw [copy_loop_cons_dir] at h
        rcases List.mem_cons.mp h with hl | hl
        · exact Or.inl ⟨⟨p, some FileType.directory, tex⟩, List.mem_cons_self _ _, rfl, hl⟩
        · exact lift (copy_loop_lines_shape n d s rest l hl)
      | regular =>
        by_cases hc : ciEq (filenameOf p) "CONTROL" = true ∨
            ciEq (filenameOf p) "BUILD_INFO" = true
        · rw [copy_loop_cons_skip n d s p tex rest hc] at h
          exact lift (copy_loop_lines_shape n d s rest l h)
        · push_neg at hc
          rw [copy_loop_cons_regular n d s p tex rest
            (Bool.eq_false_iff.mpr hc.1) (Bool.eq_false_iff.mpr hc.2)] at h
          rcases List.mem_cons.mp h with hl | hl
          · exact Or.inr ⟨⟨p, some FileType.regular, tex⟩, List.mem_cons_self _ _, rfl,
              Bool.eq_false_iff.mpr hc.1, Bool.eq_false_iff.mpr hc.2, hl⟩
          · exact lift (copy_loop_lines_shape n d s rest l hl)

theorem copy_loop_lines_complete (n : Nat) (d s : String) :
    ∀ (entries : List FSEntry) (e : FSEntry), e ∈ entries →
      (e.status = some FileType.directory →
        (s ++ "/" ++ substrFrom e.path (n + 1) ++ "/") ∈ (copy_loop n d s entries).1) ∧
      (e.status = some FileType.regular →
        ciEq (filenameOf e.path) "CONTROL" = false →
        ciEq (filenameOf e.path) "BUILD_INFO" = false →
        (s ++ "/" ++ substrFrom e.path (n + 1)) ∈ (copy_loop n d s entries).1)
  | [], e, he => absurd he (List.not_mem_nil e)
  | f :: rest, e, he => by
    rcases List.mem_cons.mp he with hef | hemem
    · subst hef
      obtain ⟨p, st, tex⟩ := e
      constructor
      · intro hdir
        simp only at hdir
        subst hdir
        rw [copy_loop_cons_dir]
        exact List.mem_cons_self _ _
      · intro hreg h1 h2
        simp only at hreg h1 h2
        subst hreg
        rw [copy_loop_cons_regular n d s p tex rest h1 h2]
        exact List.mem_cons_self _ _
    · have ih := copy_loop_lines_complete n d s rest e hemem
      exact ⟨fun hdir => copy_loop_lines_mono n d s f rest _ (ih.1 hdir),
        fun hreg h1 h2 => copy_loop_lines_mono n d s f rest _ (ih.2 hreg h1 h2)⟩

/-! ### Claim C8 -/

/-- C8: on a package sandbox whose enumerated paths extend the sandbox root
by a slash and a non-empty suffix not itself ending in a slash, the listfile
produced by `install_files_and_write_listfile` is sorted lexicographically
(by byte-wise string comparison, the `std::sort` order); its very last event
is writing exactly those lines at the given listfile path (which
`install_package` instantiates with `VcpkgPaths::listfile_path`, the
`info/<fullstem>.list` location); every line is the bare triplet
subdirectory, a directory entry `subdir/<suffix>/` ending in a slash, or a
regular-file entry `subdir/<suffix>` not ending in a slash; no line has a
filename that is (case-insensitively) `CONTROL` or `BUILD_INFO`; and every
directory and every non-excluded regular file of the sandbox contributes its
line. -/
theorem C8_listfile_layout (source_dir : String) (entries : List FSEntry)
    (destination destsub listfile : String)
    (hpaths : ∀ e ∈ entries, ∃ r : String, e.path = source_dir ++ "/" ++ r ∧
      r.data ≠ [] ∧ r.data.getLast? ≠ some '/') :
    ∃ lines events,
      install_files_and_write_listfile source_dir entries destination destsub listfile true =
        some (lines, events) ∧
      List.Sorted (fun a b => strLe a b = true) lines ∧
      events.getLast? = some (Event.writeListfile listfile lines) ∧
      (∀ l ∈ lines,
        (l = destsub ++ "/" ∧ l.data.getLast? = some '/') ∨
        (∃ e, e ∈ entries ∧ e.status = some FileType.directory ∧
          l = destsub ++ "/" ++ substrFrom e.path (strLen source_dir + 1) ++ "/" ∧
          l.data.getLast? = some '/') ∨
        (∃ e, e ∈ entries ∧ e.status = some FileType.regular ∧
          l = destsub ++ "/" ++ substrFrom e.path (strLen source_dir + 1) ∧
          l.data.getLast? ≠ some '/')) ∧
      (∀ l ∈ lines,
        ciEq (filenameOf l) "CONTROL" = false ∧ ciEq (filenameOf l) "BUILD_INFO" = false) ∧
      (∀ e ∈ entries,
        (e.status = some FileType.directory →
          (destsub ++ "/" ++ substrFrom e.path (strLen source_dir + 1) ++ "/") ∈ lines) ∧
        (e.status = some FileType.regular →
          ciEq (filenameOf e.path) "CONTROL" = false →
          ciEq (filenameOf e.path) "BUILD_INFO" = false →
          (destsub ++ "/" ++ substrFrom e.path (strLen source_dir + 1)) ∈ lines)) := by
  refine ⟨_, _, rfl, List.sorted_insertionSort _ _, ?_, ?_, ?_, ?_⟩
  · exact getLast_cons_append_singleton _ _ _
  · intro l hl
    rw [List.mem_insertionSort] at hl
    rcases List.mem_cons.mp hl with hroot | hloop
    · exact Or.inl ⟨hroot, by rw [hroot]; exact getLast_append_slash destsub⟩
    · rcases copy_loop_lines_shape (strLen source_dir) destination destsub entries l hloop
        with ⟨e, he, hst, hform⟩ | ⟨e, he, hst, h1, h2, hform⟩
      · refine Or.inr (Or.inl ⟨e, he, hst, hform, ?_⟩)
        rw [hform]
        exact getLast_append_slash _
      · refine Or.inr (Or.inr ⟨e, he, hst, hform, ?_⟩)
        obtain ⟨r, hpath, hrne, hrlast⟩ := hpaths e he
        rw [hform, hpath, substr_after_slash, getLast_slash_append destsub r hrne]
        exact hrlast
  · intro l hl
    rw [List.mem_insertionSort] at hl
    rcases List.mem_cons.mp hl with hroot | hloop
    · rw [hroot, filenameOf_append_slash]
      exact ⟨rfl, rfl⟩
    · rcases copy_loop_lines_shape (strLen source_dir) destination destsub entries l hloop
        with ⟨e, he, hst, hform⟩ | ⟨e, he, hst, h1, h2, hform⟩
      · rw [hform,
          show destsub ++ "/" ++ substrFrom e.path (strLen source_dir + 1) ++ "/" =
            (destsub ++ "/" ++ substrFrom e.path (strLen source_dir + 1)) ++ "/" from rfl,
          filenameOf_append_slash]
        exact ⟨rfl, rfl⟩
      · obtain ⟨r, hpath, hrne, hrlast⟩ := hpaths e he
        rw [hform, hpath, substr_after_slash, filenameOf_slash_append destsub r]
        rw [hpath, filenameOf_slash_append source_dir r] at h1 h2
        exact ⟨h1, h2⟩
  · intro e he
    have hc := copy_loop_lines_complete (strLen source_dir) destination destsub entries e he
    constructor
    · intro hdir
      rw [List.mem_insertionSort]
      exact List.mem_cons_of_mem _ (hc.1 hdir)
    · intro hreg h1 h2
      rw [List.mem_insertionSort]
      exact List.mem_cons_of_mem _ (hc.2 hreg h1 h2)

/-- C8 witness: a sandbox with a directory, a nested file, and the excluded
`CONTROL`/`BUILD_INFO` files produces the sorted, slash-annotated,
control-free listfile. -/
theorem C8_listfile_layout_witness :
    (∀ e ∈ ([⟨"pkg/CONTROL", some FileType.regular, false⟩,
        ⟨"pkg/include", some FileType.directory, false⟩,
        ⟨"pkg/include/z.h", some FileType.regular, false⟩] : List FSEntry),
      ∃ r : String, e.path = "pkg" ++ "/" ++ r ∧ r.data ≠ [] ∧
        r.data.getLast? ≠ some '/') ∧
    ∃ lines events,
      install_files_and_write_listfile "pkg"
          [⟨"pkg/CONTROL", some FileType.regular, false⟩,
           ⟨"pkg/include", some FileType.directory, false⟩,
           ⟨"pkg/include/z.h", some FileType.regular, false⟩]
          "inst/x86" "x86" "info/q_1_x86.list" true = some (lines, events) ∧
      List.Sorted (fun a b => strLe a b = true) lines ∧
      (∀ l ∈ lines,
        ciEq (filenameOf l) "CONTROL" = false ∧ ciEq (filenameOf l) "BUILD_INFO" = false) := by
  have hp : ∀ e ∈ ([⟨"pkg/CONTROL", some FileType.regular, false⟩,
      ⟨"pkg/include", some FileType.directory, false⟩,
      ⟨"pkg/include/z.h", some FileType.regular, false⟩] : List FSEntry),
      ∃ r : String, e.path = "pkg" ++ "/" ++ r ∧ r.data ≠ [] ∧
        r.data.getLast? ≠ some '/' := by
    intro e he
    rcases List.mem_cons.mp he with h | he
    · exact ⟨"CONTROL", by rw [h]; decide, by decide, by decide⟩
    rcases List.mem_cons.mp he with h | he
    · exact ⟨"include", by rw [h]; decide, by decide, by decide⟩
    rcases List.mem_cons.mp he with h | he
    · exact ⟨"include/z.h", by rw [h]; decide, by decide, by decide⟩
    · cases he
  obtain ⟨lines, events, heq, hsorted, _, _, hctrl, _⟩ :=
    C8_listfile_layout "pkg"
      [⟨"pkg/CONTROL", some FileType.regular, false⟩,
       ⟨"pkg/include", some FileType.directory, false⟩,
       ⟨"pkg/include/z.h", some FileType.regular, false⟩]
      "inst/x86" "x86" "info/q_1_x86.list" hp
  exact ⟨hp, lines, events, heq, hsorted, hctrl⟩

/-! ### Claim C4 -/

theorem journalWrites_append (l1 l2 : List Event) :
    journalWrites (l1 ++ l2) = journalWrites l1 ++ journalWrites l2 :=
  List.filterMap_append l1 l2 _

theorem journalWrites_flatMap (features : List BinaryParagraph) (st : InstallState) :
    journalWrites (features.flatMap (fun f => recordEvents f st)) =
      features.map (fun f => installRecord f st) := by
  induction features with
  | nil => rfl
  | cons f rest ih =>
    rw [List.flatMap_cons, journalWrites_append, ih]
    rfl

theorem journalWrites_record_trace (core : BinaryParagraph)
    (features : List BinaryParagraph) (st : InstallState) :
    journalWrites (recordEvents core st ++ features.flatMap (fun f => recordEvents f st)) =
      installRecord core st :: features.map (fun f => installRecord f st) := by
  rw [journalWrites_append, journalWrites_flatMap]
  rfl

theorem record_trace_states (core : BinaryParagraph) (features : List BinaryParagraph)
    (st : InstallState) :
    ∀ p ∈ installRecord core st :: features.map (fun f => installRecord f st),
      p.want = Want.INSTALL ∧ p.state = st := by
  intro p hp
  rcases List.mem_cons.mp hp with h | h
  · rw [h]
    exact ⟨rfl, rfl⟩
  · obtain ⟨f, _, hf⟩ := List.mem_map.mp h
    rw [← hf]
    exact ⟨rfl, rfl⟩

theorem copy_loop_no_status_writes (n : Nat) (d s : String) :
    ∀ (entries : List FSEntry) (ev : Event), ev ∈ (copy_loop n d s entries).2 →
      ev.isStatusWrite = false
  | [], ev, h => by
    simp only [copy_loop] at h
    cases h
  | f :: rest, ev, h => by
    obtain ⟨p, st, tex⟩ := f
    cases st with
    | none =>
      rw [copy_loop_cons_statusError] at h
      rcases List.mem_cons.mp h with hl | hl
      · rw [hl]; rfl
      · exact copy_loop_no_status_writes n d s rest ev hl
    | some ft =>
      cases ft with
      | other =>
        rw [copy_loop_cons_other] at h
        rcases List.mem_cons.mp h with hl | hl
        · rw [hl]; rfl
        · exact copy_loop_no_status_writes n d s rest ev hl
      | directory =>
        rw [copy_loop_cons_dir] at h
        rcases List.mem_cons.mp h with hl | hl
        · rw [hl]; rfl
        · exact copy_loop_no_status_writes n d s rest ev hl
      | regular =>
        by_cases hc : ciEq (filenameOf p) "CONTROL" = true ∨
            ciEq (filenameOf p) "BUILD_INFO" = true
        · rw [copy_loop_cons_skip n d s p tex rest hc] at h
          exact copy_loop_no_status_writes n d s rest ev h
        · push_neg at hc
          rw [copy_loop_cons_regular n d s p tex rest
            (Bool.eq_false_iff.mpr hc.1) (Bool.eq_false_iff.mpr hc.2)] at h
          rcases List.mem_append.mp h with hl | hl
          · cases htex : tex with
            | true =>
              rw [htex, if_pos rfl] at hl
              rcases List.mem_cons.mp hl with hl2 | hl2
              · rw [hl2]; rfl
              · cases hl2
            | false =>
              rw [htex, if_neg (fun hc => Bool.noConfusion hc)] at hl
              cases hl
          · rcases List.mem_cons.mp hl with hl2 | hl2
            · rw [hl2]; rfl
            · exact copy_loop_no_status_writes n d s rest ev hl2

/-- C4: on the non-conflicting path of `install_package`, the event trace
decomposes as journal-plus-insert writes of a `HALF_INSTALLED`
(`want = INSTALL`) record for the core paragraph and then each feature
paragraph, followed by the copy-and-listfile events (none of which writes a
status record), followed by the rewrites of the very same records with state
`INSTALLED`.  Hence every status write before the first copy event is
`HALF_INSTALLED`, the `INSTALLED` rewrites all come after the listfile
write, and an interruption anywhere during the copy leaves every record of
the package at `HALF_INSTALLED`. -/
theorem C4_half_installed_ordering (paths : VcpkgPathsModel) (bcf : BinaryControlFile)
    (status_db : List StatusParagraph) (entries : List FSEntry)
    (pgh_and_files : List (String × List String))
    (h1 : setIntersection
        (build_list_of_package_files (entries.map (fun e => e.path))
          (package_dir paths bcf.core_paragraph))
        (build_list_of_installed_files pgh_and_files bcf.core_paragraph.triplet) = []) :
    ∃ copyEvents db2,
      install_package paths bcf status_db entries pgh_and_files true =
        ((recordEvents bcf.core_paragraph InstallState.HALF_INSTALLED ++
            bcf.features.flatMap (fun f => recordEvents f InstallState.HALF_INSTALLED)) ++
          copyEvents ++
          (recordEvents bcf.core_paragraph InstallState.INSTALLED ++
            bcf.features.flatMap (fun f => recordEvents f InstallState.INSTALLED)),
          some (InstallResult.SUCCESS, db2)) ∧
      journalWrites (recordEvents bcf.core_paragraph InstallState.HALF_INSTALLED ++
          bcf.features.flatMap (fun f => recordEvents f InstallState.HALF_INSTALLED)) =
        installRecord bcf.core_paragraph InstallState.HALF_INSTALLED ::
          bcf.features.map (fun f => installRecord f InstallState.HALF_INSTALLED) ∧
      (∀ p ∈ journalWrites (recordEvents bcf.core_paragraph InstallState.HALF_INSTALLED ++
          bcf.features.flatMap (fun f => recordEvents f InstallState.HALF_INSTALLED)),
        p.want = Want.INSTALL ∧ p.state = InstallState.HALF_INSTALLED) ∧
      (∀ ev ∈ copyEvents, ev.isStatusWrite = false) ∧
      journalWrites (recordEvents bcf.core_paragraph InstallState.INSTALLED ++
          bcf.features.flatMap (fun f => recordEvents f InstallState.INSTALLED)) =
        installRecord bcf.core_paragraph InstallState.INSTALLED ::
          bcf.features.map (fun f => installRecord f InstallState.INSTALLED) ∧
      (∀ p ∈ journalWrites (recordEvents bcf.core_paragraph InstallState.INSTALLED ++
          bcf.features.flatMap (fun f => recordEvents f InstallState.INSTALLED)),
        p.want = Want.INSTALL ∧ p.state = InstallState.INSTALLED) ∧
      (∃ lines, Event.writeListfile (listfile_path paths bcf.core_paragraph) lines ∈
        copyEvents) := by
  have he : (setIntersection
      (build_list_of_package_files (entries.map (fun e => e.path))
        (package_dir paths bcf.core_paragraph))
      (build_list_of_installed_files pgh_and_files bcf.core_paragraph.triplet)).isEmpty =
      true := by rw [h1]; rfl
  refine ⟨Event.createDir (paths.installed ++ "/" ++ bcf.core_paragraph.triplet) ::
      (copy_loop (strLen (package_dir paths bcf.core_paragraph))
        (paths.installed ++ "/" ++ bcf.core_paragraph.triplet)
        bcf.core_paragraph.triplet entries).2 ++
      [Event.writeListfile (listfile_path paths bcf.core_paragraph)
        (List.insertionSort (fun a b => strLe a b = true)
          ((bcf.core_paragraph.triplet ++ "/") ::
            (copy_loop (strLen (package_dir paths bcf.core_paragraph))
              (paths.installed ++ "/" ++ bcf.core_paragraph.triplet)
              bcf.core_paragraph.triplet entries).1))],
    (bcf.features.map (fun f => installRecord f InstallState.INSTALLED)).foldl
      statusDbInsert
      (statusDbInsert
        ((bcf.features.map (fun f => installRecord f InstallState.HALF_INSTALLED)).foldl
          statusDbInsert
          (statusDbInsert status_db
            (installRecord bcf.core_paragraph InstallState.HALF_INSTALLED)))
        (installRecord bcf.core_paragraph InstallState.INSTALLED)),
    ?_, ?_, ?_, ?_, ?_, ?_, ?_⟩
  · simp only [install_package]
    rw [he]
    simp only [Bool.not_true, Bool.false_eq_true, if_false]
    rfl
  · exact journalWrites_record_trace _ _ _
  · rw [journalWrites_record_trace]
    exact record_trace_states _ _ _
  · intro ev hev
    rcases List.mem_cons.mp hev with hl | hl
    · rw [hl]; rfl
    · rcases List.mem_append.mp hl with hl2 | hl2
      · exact copy_loop_no_status_writes _ _ _ entries ev hl2
      · rcases List.mem_cons.mp hl2 with hl3 | hl3
        · rw [hl3]; rfl
        · cases hl3
  · exact journalWrites_record_trace _ _ _
  · rw [journalWrites_record_trace]
    exact record_trace_states _ _ _
  · refine ⟨_, List.mem_cons_of_mem _ (List.mem_append_right _ (List.mem_cons_self _ _))⟩

/-- C4 witness: a concrete conflict-free install emits the half-installed
records first, the copy events next, and the installed rewrites last. -/
theorem C4_half_installed_ordering_witness :
    setIntersection
        (build_list_of_package_files
          (List.map (fun e => e.path)
            ([⟨"pk/q_x86/a.txt", some FileType.regular, false⟩] : List FSEntry))
          (package_dir { packages := "pk", installed := "inst", vcpkg_dir_info := "info" }
            { name := "q", version := "1", triplet := "x86" }))
        (build_list_of_installed_files [] "x86") = [] ∧
    ∃ copyEvents db2,
      install_package { packages := "pk", installed := "inst", vcpkg_dir_info := "info" }
          { core_paragraph := { name := "q", version := "1", triplet := "x86" } }
          [] [⟨"pk/q_x86/a.txt", some FileType.regular, false⟩] [] true =
        ((recordEvents { name := "q", version := "1", triplet := "x86" }
             InstallState.HALF_INSTALLED ++
            ([] : List BinaryParagraph).flatMap
              (fun f => recordEvents f InstallState.HALF_INSTALLED)) ++
          copyEvents ++
          (recordEvents { name := "q", version := "1", triplet := "x86" }
             InstallState.INSTALLED ++
            ([] : List BinaryParagraph).flatMap
              (fun f => recordEvents f InstallState.INSTALLED)),
          some (InstallResult.SUCCESS, db2)) ∧
      (∀ ev ∈ copyEvents, ev.isStatusWrite = false) := by
  constructor
  · decide
  · obtain ⟨copyEvents, db2, heq, _, _, hnostatus, _⟩ :=
      C4_half_installed_ordering
        { packages := "pk", installed := "inst", vcpkg_dir_info := "info" }
        { core_paragraph := { name := "q", version := "1", triplet := "x86" } }
        [] [⟨"pk/q_x86/a.txt", some FileType.regular, false⟩] [] (by decide)
    exact ⟨copyEvents, db2, heq, hnostatus⟩

end Vcpkg
